import Mathlib

/-!
Shallow embedding of the agent-dsl repository (src/agent_dsl/parser.py and
src/agent_dsl/runtime.py) in Lean 4, together with theorems settling the
specification claims.

Modelling conventions (stated once here, referenced below):
* Python strings are Lean `String`s (lists of unicode scalar `Char`s);
  `str.strip`/`rstrip`/`lower`/`upper`/`title` are modelled for the ASCII
  whitespace/letter range used by the DSL sources.
* Python floats are modelled as exact rationals (`ℚ`); `float(str)` is
  modelled for finite decimal literals with optional sign, fraction and
  exponent (`inf`/`nan`/underscore separators are not modelled), and
  `str(float)` for rationals with a finite decimal expansion.  Python ints
  and floats are kept apart (`Value.vint` / `Value.vfloat`) because
  `str()` distinguishes them.
* Python dicts keyed by strings are association lists; assignment keeps the
  first-insertion position of an existing key (`dictSet`).
* `ast.parse` (the CPython expression parser, external to this repository)
  is an abstract parameter `P : String → Except String PyExpr` of the
  engine; the expression evaluators themselves work on the `PyExpr` tree,
  which mirrors exactly the `ast` node kinds the evaluator inspects.
* Loops of parser.py that can fail to advance (the nested-block scanning
  loops can genuinely diverge in Python) are given explicit fuel; fuel
  exhaustion is the distinguished result `PErr.fuelOut`, kept apart from a
  raised parse error `PErr.err`.
-/

namespace AgentDsl

/-! ### Python string primitives -/

/-- The opening brace character. -/
def obr : Char := Char.ofNat 123

/-- The closing brace character. -/
def cbr : Char := Char.ofNat 125

/-- ASCII whitespace, as stripped by Python `str.strip()`. -/
def pyWs (c : Char) : Bool :=
  c == ' ' || c == '\t' || c == '\n' || c == '\r' || c == '\x0b' || c == '\x0c'

def stripList (cs : List Char) : List Char :=
  ((cs.dropWhile pyWs).reverse.dropWhile pyWs).reverse

/-- Python `str.strip()`. -/
def pyStrip (s : String) : String := ⟨stripList s.data⟩

/-- Python `str.rstrip()`. -/
def pyRStrip (s : String) : String := ⟨(s.data.reverse.dropWhile pyWs).reverse⟩

/-- Python `str.startswith`. -/
def pyStarts (s pre : String) : Bool := pre.data.isPrefixOf s.data

/-- Python `str.endswith`. -/
def pyEnds (s suf : String) : Bool := suf.data.isSuffixOf s.data

/-- Python `str.lower()` (ASCII range). -/
def asciiLower (s : String) : String := ⟨s.data.map Char.toLower⟩

/-- Python `str.upper()` (ASCII range). -/
def pyUpper (s : String) : String := ⟨s.data.map Char.toUpper⟩

/-- Python `str.lower()` (ASCII range), on a value string. -/
def pyLower (s : String) : String := ⟨s.data.map Char.toLower⟩

def pyTitleAux : Bool → List Char → List Char
  | _, [] => []
  | prevAlpha, c :: cs =>
      let isA := c.isAlpha
      (if isA then (if prevAlpha then c.toLower else c.toUpper) else c)
        :: pyTitleAux isA cs

/-- Python `str.title()` (ASCII letters). -/
def pyTitle (s : String) : String := ⟨pyTitleAux false s.data⟩

/-- Split at the first occurrence of a character, Python `s.split(c, 1)`
    when the separator occurs (`none` when it does not). -/
def splitFirstChar : List Char → Char → Option (List Char × List Char)
  | [], _ => none
  | x :: xs, c =>
      if x = c then some ([], xs)
      else (splitFirstChar xs c).map (fun p => (x :: p.1, p.2))

/-- Split at the first occurrence of a (nonempty) separator substring,
    Python `s.split(sep, 1)` when `sep in s` (`none` when not). -/
def splitSub (sep : List Char) : List Char → Option (List Char × List Char)
  | [] => none
  | c :: rest =>
      if sep.isPrefixOf (c :: rest) then some ([], (c :: rest).drop sep.length)
      else (splitSub sep rest).map (fun p => (c :: p.1, p.2))

def splitChar (c : Char) : List Char → List (List Char)
  | [] => [[]]
  | x :: xs =>
      let r := splitChar c xs
      if x = c then [] :: r
      else
        match r with
        | [] => [[x]]
        | h :: t => (x :: h) :: t

/-- Python `str.splitlines()` restricted to `\n` separators: no trailing
    empty segment for a trailing newline, and `[]` for the empty string. -/
def pySplitlines (s : String) : List String :=
  if s.data = [] then []
  else
    let ps := splitChar '\n' s.data
    let ps2 := if ps.getLast? = some [] then ps.dropLast else ps
    ps2.map (fun cs => (⟨cs⟩ : String))

/-- parser.py `_unquote`: strip, then remove one matching pair of double
    quotes if present. -/
def unquote (val : String) : String :=
  let v := pyStrip val
  if pyStarts v "\"" && pyEnds v "\"" then ⟨(v.data.drop 1).dropLast⟩ else v

/-- Association-list lookup (Python `dict.get`). -/
def lookupStr {α : Type} (d : List (String × α)) (k : String) : Option α :=
  (d.find? (fun p => p.1 = k)).map (fun p => p.2)

/-- Association-list assignment (Python `dict.__setitem__`): overwrite in
    place, or append a new key at the end. -/
def dictSet {α : Type} (k : String) (v : α) : List (String × α) → List (String × α)
  | [] => [(k, v)]
  | (k2, v2) :: rest =>
      if k2 = k then (k2, v) :: rest else (k2, v2) :: dictSet k v rest

/-! ### Python numbers: `float(str)` and `str(float)` models -/

def natOfDigits (ds : List Char) : Nat :=
  ds.foldl (fun a c => a * 10 + (c.toNat - 48)) 0

def parseExpPart (cs : List Char) (m : ℚ) : Option ℚ :=
  match cs with
  | [] => some m
  | e :: r =>
      if e = 'e' || e = 'E' then
        let (sgn, r2) :=
          match r with
          | '+' :: t => (true, t)
          | '-' :: t => (false, t)
          | t => (true, t)
        let (ds, r3) := r2.span Char.isDigit
        if ds = [] || r3 ≠ [] then none
        else
          let p : ℚ := (10 : ℚ) ^ natOfDigits ds
          some (if sgn then m * p else m / p)
      else none

def parseUFloat (cs : List Char) : Option ℚ :=
  let (ip, r1) := cs.span Char.isDigit
  match r1 with
  | '.' :: r2 =>
      let (fp, r3) := r2.span Char.isDigit
      if ip = [] && fp = [] then none
      else
        parseExpPart r3
          ((natOfDigits ip : ℚ) + (natOfDigits fp : ℚ) / (10 : ℚ) ^ fp.length)
  | _ =>
      if ip = [] then none else parseExpPart r1 (natOfDigits ip : ℚ)

/-- Model of CPython `float(s)` on strings (finite decimal literals; see the
    header for the modelling conventions). -/
def pyFloat? (s : String) : Option ℚ :=
  match stripList s.data with
  | '+' :: r => parseUFloat r
  | '-' :: r => (parseUFloat r).map Neg.neg
  | r => parseUFloat r

def fracDigitsAux : Nat → ℚ → List Char
  | 0, _ => []
  | _, 0 => []
  | n + 1, q =>
      let d := ⌊q * 10⌋
      Char.ofNat (48 + d.toNat) :: fracDigitsAux n (q * 10 - (d : ℚ))

/-- Model of Python `str(float)` for rationals with a finite decimal
    expansion (up to 17 digits). -/
def floatRepr (q : ℚ) : String :=
  let a := |q|
  let ip : ℤ := ⌊a⌋
  let fr := a - (ip : ℚ)
  let ds := fracDigitsAux 17 fr
  let core := toString ip ++ "." ++ (if ds = [] then "0" else (⟨ds⟩ : String))
  (if q < 0 then "-" else "") ++ core

/-! ### Runtime values (runtime.py keeps ints, floats, bools, strings, None) -/

inductive Value where
  | vint (n : ℤ)
  | vfloat (q : ℚ)
  | vstr (s : String)
  | vbool (b : Bool)
  | vnone
  deriving Repr, DecidableEq

/-- Python `str(value)`. -/
def pyStr : Value → String
  | .vint n => toString n
  | .vfloat q => floatRepr q
  | .vstr s => s
  | .vbool b => if b then "True" else "False"
  | .vnone => "None"

/-- runtime.py `_coerce_number`, reduced to its numeric outcome:
    `isinstance(v, (int, float))` is true for ints, floats and bools
    (Python bools are ints); otherwise `float(str(v))` is attempted.
    `none` is the branch where the original value is returned and the
    caller's `isinstance` test then fails. -/
def coerceNum : Value → Option ℚ
  | .vint n => some (n : ℚ)
  | .vfloat q => some q
  | .vbool b => some (if b then 1 else 0)
  | .vstr s => pyFloat? s
  | .vnone => pyFloat? "None"

/-- runtime.py `_to_number_maybe` (same numeric test as `_coerce_number`). -/
def toNumberMaybe : Value → Option ℚ := coerceNum

/-- runtime.py `_as_numbers`. -/
def asNumbers (a b : Value) : Option (ℚ × ℚ) :=
  match toNumberMaybe a, toNumberMaybe b with
  | some x, some y => some (x, y)
  | _, _ => none

/-- Python truthiness as used at the tail of `_eval_bool`:
    `v != 0` for ints/floats/bools, `bool(v)` otherwise. -/
def pyTruthy : Value → Bool
  | .vint n => decide (n ≠ 0)
  | .vfloat q => decide (q ≠ 0)
  | .vbool b => b
  | .vstr s => !(s == "")
  | .vnone => false

/-! ### The restricted expression AST (the `ast` node kinds inspected by
    runtime.py) and its evaluators -/

inductive BinOpK where
  | add | sub | mul | div | floordiv | mod
  | otherOp
  deriving Repr, DecidableEq

inductive UnOpK where
  | uadd | usub | unot | otherUn
  deriving Repr, DecidableEq

inductive CmpK where
  | ceq | cne | cgt | clt | cge | cle
  | otherCmp
  deriving Repr, DecidableEq

inductive BoolK where
  | bAnd | bOr
  deriving Repr, DecidableEq

inductive PyExpr where
  | binop (op : BinOpK) (l r : PyExpr)
  | unop (op : UnOpK) (e : PyExpr)
  | name (id : String)
  | constInt (n : ℤ)
  | constFloat (q : ℚ)
  | constStr (s : String)
  | constBool (b : Bool)
  | constNone
  | call (func : PyExpr) (args : List PyExpr)
  | subscript (v idx : PyExpr)
  | attr (v : PyExpr) (a : String)
  | boolop (op : BoolK) (vals : List PyExpr)
  | compare (l : PyExpr) (rest : List (CmpK × PyExpr))
  | other
  deriving Repr

def FUNC_WHITELIST : List String :=
  ["len", "abs", "int", "float", "str", "upper", "lower", "title", "trim",
   "min", "max", "contains"]

/-- Python `float(x)` applied to a runtime value (raises on non-numeric
    strings and on `None`). -/
def pyFloatCoerce : Value → Except String ℚ
  | .vint n => .ok (n : ℚ)
  | .vfloat q => .ok q
  | .vbool b => .ok (if b then 1 else 0)
  | .vstr s =>
      match pyFloat? s with
      | some q => .ok q
      | none => .error ("could not convert string to float: " ++ s)
  | .vnone => .error "float() argument must be a string or a real number"

/-- Truncation toward zero, Python `int(float)`. -/
def pyTrunc (q : ℚ) : ℤ := if 0 ≤ q then ⌊q⌋ else ⌈q⌉

/-- Substring membership, Python `n in h`. -/
def substrB (nee hay : String) : Bool :=
  (hay.data.tails).any (fun t => nee.data.isPrefixOf t)

/-- The whitelisted helper functions `_fn_len` .. `_fn_contains` of
    runtime.py, dispatched by name with their fixed arities (a wrong arity
    is the uncaught Python `TypeError`, a fatal error). -/
def applyFn (f : String) (args : List Value) : Except String Value :=
  match f, args with
  | "len", [x] => .ok (.vint ((pyStr x).length : ℤ))
  | "abs", [x] => (pyFloatCoerce x).map (fun q => .vfloat |q|)
  | "int", [x] => (pyFloatCoerce x).map (fun q => .vint (pyTrunc q))
  | "float", [x] => (pyFloatCoerce x).map (fun q => .vfloat q)
  | "str", [x] => .ok (.vstr (pyStr x))
  | "upper", [x] => .ok (.vstr (pyUpper (pyStr x)))
  | "lower", [x] => .ok (.vstr (pyLower (pyStr x)))
  | "title", [x] => .ok (.vstr (pyTitle (pyStr x)))
  | "trim", [x] => .ok (.vstr (pyStrip (pyStr x)))
  | "min", [a, b] => do
      let qa ← pyFloatCoerce a
      let qb ← pyFloatCoerce b
      .ok (.vfloat (min qa qb))
  | "max", [a, b] => do
      let qa ← pyFloatCoerce a
      let qb ← pyFloatCoerce b
      .ok (.vfloat (max qa qb))
  | "contains", [h, n] => .ok (.vbool (substrB (pyStr n) (pyStr h)))
  | _, _ => .error ("错误的参数个数：" ++ f)

mutual

/-- runtime.py `_eval_value_node`. -/
def evalValue : PyExpr → List (String × String) → Except String Value
  | .binop .otherOp _ _, _ => .error "表达式不被允许"
  | .binop op l r, ctx => do
      let lv ← evalValue l ctx
      let rv ← evalValue r ctx
      match coerceNum lv, coerceNum rv with
      | some a, some b =>
          match op with
          | .add => .ok (.vfloat (a + b))
          | .sub => .ok (.vfloat (a - b))
          | .mul => .ok (.vfloat (a * b))
          | .div =>
              if b = 0 then .error "float division by zero"
              else .ok (.vfloat (a / b))
          | .floordiv =>
              if b = 0 then .error "float floor division by zero"
              else .ok (.vfloat (⌊a / b⌋ : ℤ))
          | .mod =>
              if b = 0 then .error "float modulo"
              else .ok (.vfloat (a - (⌊a / b⌋ : ℤ) * b))
          | .otherOp => .error "表达式不被允许"
      | _, _ =>
          match op, lv, rv with
          | .add, .vstr s1, .vstr s2 => .ok (.vstr (s1 ++ s2))
          | _, _, _ => .error "仅支持数字算术或字符串相加"
  | .unop .unot _, _ => .error "表达式不被允许"
  | .unop .otherUn _, _ => .error "表达式不被允许"
  | .unop op e, ctx => do
      let v ← evalValue e ctx
      match coerceNum v with
      | some q => .ok (.vfloat (if op = .uadd then q else -q))
      | none => .error "一元正负仅支持数字"
  | .name id, ctx =>
      let low := asciiLower id
      if low = "true" then .ok (.vbool true)
      else if low = "false" then .ok (.vbool false)
      else if low = "null" then .ok .vnone
      else .ok (.vstr ((lookupStr ctx id).getD ""))
  | .constInt n, _ => .ok (.vint n)
  | .constFloat q, _ => .ok (.vfloat q)
  | .constStr s, _ => .ok (.vstr s)
  | .constBool b, _ => .ok (.vbool b)
  | .constNone, _ => .ok .vnone
  | .call f args, ctx =>
      match f with
      | .name id =>
          if id ∈ FUNC_WHITELIST then do
            let vs ← evalArgs args ctx
            applyFn id vs
          else .error "仅允许白名单函数调用"
      | _ => .error "仅允许白名单函数调用"
  | .subscript _ _, _ => .error "不允许下标或属性访问"
  | .attr _ _, _ => .error "不允许下标或属性访问"
  | .boolop _ _, _ => .error "表达式不被允许"
  | .compare _ _, _ => .error "表达式不被允许"
  | .other, _ => .error "表达式不被允许"

def evalArgs : List PyExpr → List (String × String) → Except String (List Value)
  | [], _ => .ok []
  | a :: rest, ctx => do
      let v ← evalValue a ctx
      let vs ← evalArgs rest ctx
      .ok (v :: vs)

end

/-- runtime.py `_do_compare`. -/
def doCompare (a : Value) (op : CmpK) (b : Value) : Except String Bool :=
  match asNumbers a b with
  | some (x, y) =>
      match op with
      | .ceq => .ok (decide (x = y))
      | .cne => .ok (decide (x ≠ y))
      | .cgt => .ok (decide (y < x))
      | .clt => .ok (decide (x < y))
      | .cge => .ok (decide (y ≤ x))
      | .cle => .ok (decide (x ≤ y))
      | .otherCmp => .error "不支持的操作符"
  | none =>
      let sa := (pyStr a).data
      let sb := (pyStr b).data
      match op with
      | .ceq => .ok (decide (sa = sb))
      | .cne => .ok (decide (sa ≠ sb))
      | .cgt => .ok (decide (List.Lex (· < ·) sb sa))
      | .clt => .ok (decide (List.Lex (· < ·) sa sb))
      | .cge => .ok (decide (¬ List.Lex (· < ·) sa sb))
      | .cle => .ok (decide (¬ List.Lex (· < ·) sb sa))
      | .otherCmp => .error "不支持的操作符"

mutual

/-- runtime.py `_eval_bool` (the inner `ev`). -/
def evalBool : PyExpr → List (String × String) → Except String Bool
  | .boolop .bAnd vals, ctx => evalAnd vals ctx
  | .boolop .bOr vals, ctx => evalOr vals ctx
  | .unop .unot e, ctx => do
      let b ← evalBool e ctx
      .ok (!b)
  | .compare l rest, ctx => do
      let lv ← evalValue l ctx
      evalChain lv rest ctx
  | .constInt n, ctx => evalTruthyVia (.constInt n) ctx
  | .constFloat q, ctx => evalTruthyVia (.constFloat q) ctx
  | .constStr s, ctx => evalTruthyVia (.constStr s) ctx
  | .constBool b, ctx => evalTruthyVia (.constBool b) ctx
  | .constNone, ctx => evalTruthyVia .constNone ctx
  | .name id, ctx => evalTruthyVia (.name id) ctx
  | .binop op l r, ctx => evalTruthyVia (.binop op l r) ctx
  | .unop op e, ctx => evalTruthyVia (.unop op e) ctx
  | .call f args, ctx => evalTruthyVia (.call f args) ctx
  | e, _ => .error ("不允许的布尔表达式：" ++ reprStr e)

/-- The `(Constant, Name, BinOp, UnaryOp, Call)` branch of `_eval_bool`:
    evaluate as a value and take Python truthiness. -/
def evalTruthyVia (e : PyExpr) (ctx : List (String × String)) : Except String Bool := do
  let v ← evalValue e ctx
  .ok (pyTruthy v)

def evalAnd : List PyExpr → List (String × String) → Except String Bool
  | [], _ => .ok true
  | v :: rest, ctx => do
      let b ← evalBool v ctx
      if b then evalAnd rest ctx else .ok false

def evalOr : List PyExpr → List (String × String) → Except String Bool
  | [], _ => .ok false
  | v :: rest, ctx => do
      let b ← evalBool v ctx
      if b then .ok true else evalOr rest ctx

def evalChain : Value → List (CmpK × PyExpr) → List (String × String) → Except String Bool
  | _, [], _ => .ok true
  | cur, (op, comp) :: rest, ctx => do
      let rv ← evalValue comp ctx
      let ok ←
        match op with
        | .otherCmp => Except.error "比较运算仅支持 == != > < >= <="
        | _ => doCompare cur op rv
      if ok then evalChain rv rest ctx else .ok false

end

/-! ### Text interpolation (runtime.py `_interpolate` and helpers) -/

def replPair (a b repl : Char) : List Char → List Char
  | x :: y :: rest =>
      if x = a ∧ y = b then repl :: replPair a b repl rest
      else x :: replPair a b repl (y :: rest)
  | l => l

/-- runtime.py `_unescape_filter_arg`: sequential left-to-right
    `replace` of the two-character escapes. -/
def unescapeFilterArg (s : String) : String :=
  ⟨replPair '\\' '\\' '\\' (replPair '\\' '"' '"' s.data)⟩

/-- runtime.py `_apply_filter` (values reaching it are strings). -/
def applyFilter (value : String) (filt : String) (arg : Option String) : String :=
  let s := value
  let f := asciiLower filt
  if f = "upper" then pyUpper s
  else if f = "lower" then pyLower s
  else if f = "title" then pyTitle s
  else if f = "trim" then pyStrip s
  else if f = "default" then (if s ≠ "" then s else arg.getD "")
  else s

/-- The character loop of `_parse_pipeline`: split on a pipe that is
    outside quotes, honouring backslash escapes; every emitted part is
    stripped, and an empty trailing buffer is dropped. -/
def splitPipesAux : List Char → Bool → Bool → List Char → List String
  | [], _, _, buf => if buf.isEmpty then [] else [pyStrip ⟨buf⟩]
  | ch :: rest, q, esc, buf =>
      if esc then splitPipesAux rest q false (buf ++ [ch])
      else if ch = '\\' then splitPipesAux rest q true (buf ++ [ch])
      else if ch = '"' then splitPipesAux rest (!q) false (buf ++ [ch])
      else if ch = '|' ∧ !q then pyStrip ⟨buf⟩ :: splitPipesAux rest q false []
      else splitPipesAux rest q false (buf ++ [ch])

/-- The quoted filter-argument scanner: models the regex fragment
    ((\x5c\x5c.|[^"])*)" — at a quote the content must stop (neither
    alternative matches a bare quote), and a backslash may take the next
    character with it or stand alone. -/
def scanArg : Nat → List Char → Option (List Char × List Char)
  | 0, _ => none
  | _ + 1, [] => none
  | _ + 1, '"' :: rest => some ([], rest)
  | _ + 1, '\\' :: [] => none
  | fuel + 1, '\\' :: d :: rest2 =>
      (match scanArg fuel rest2 with
       | some (a, r) => some ('\\' :: d :: a, r)
       | none => none) <|>
      (match scanArg fuel (d :: rest2) with
       | some (a, r) => some ('\\' :: a, r)
       | none => none)
  | fuel + 1, c :: rest => (scanArg fuel rest).map (fun p => (c :: p.1, p.2))

/-- The per-segment filter regex of `_parse_pipeline`:
    name, optionally a colon and a quoted argument, then only whitespace. -/
def parseFilterSeg (seg : String) : Option (String × Option String) :=
  match seg.data with
  | [] => none
  | c :: rest =>
      if c.isAlpha || c = '_' then
        let (nm, r1) := rest.span (fun ch => ch.isAlphanum || ch = '_')
        let fname : String := ⟨c :: nm⟩
        let r2 := r1.dropWhile pyWs
        match r2 with
        | [] => some (fname, none)
        | ':' :: r3 =>
            let r4 := r3.dropWhile pyWs
            match r4 with
            | '"' :: r5 =>
                match scanArg (r5.length + 1) r5 with
                | some (arg, r6) =>
                    if r6.dropWhile pyWs = [] then
                      some (fname, some (unescapeFilterArg ⟨arg⟩))
                    else none
                | none => none
            | _ => none
        | _ => none
      else none

/-- runtime.py `_parse_pipeline`. -/
def parsePipeline (inner : String) : String × List (String × Option String) :=
  match splitPipesAux inner.data false false [] with
  | [] => ("", [])
  | var :: segs => (pyStrip var, segs.filterMap parseFilterSeg)

/-- The body of the `repl` callback of `_interpolate`, after the tag's
    inner text has been isolated. -/
def renderCore (var : String) (filters : List (String × Option String))
    (ctx : List (String × String)) : String :=
  filters.foldl (fun v p => applyFilter v p.1 p.2) ((lookupStr ctx var).getD "")

/-- `repl` of `_interpolate` on one tag's inner text. -/
def renderTag (inner : String) (ctx : List (String × String)) : String :=
  renderCore (parsePipeline inner).1 (parsePipeline inner).2 ctx

/-- Find the first closing-brace pair, returning the text before it and
    the text after it. -/
def findClose : List Char → Option (List Char × List Char)
  | [] => none
  | c :: rest =>
      if c = cbr ∧ rest.head? = some cbr then some ([], rest.tail)
      else (findClose rest).map (fun p => (c :: p.1, p.2))

theorem findClose_length : ∀ cs b a, findClose cs = some (b, a) → a.length < cs.length := by
  intro cs
  induction cs with
  | nil => intro b a h; simp [findClose] at h
  | cons c rest ih =>
      intro b a h
      simp only [findClose] at h
      split at h
      · rename_i hc
        obtain ⟨h1, h2⟩ := hc
        cases rest with
        | nil => simp at h2
        | cons d t =>
            simp at h2
            simp [List.tail] at h
            obtain ⟨_, h3⟩ := h
            subst h3
            simp [List.length]
            omega
      · cases hr : findClose rest with
        | none => simp [hr] at h
        | some p =>
            obtain ⟨b2, a2⟩ := p
            simp [hr] at h
            obtain ⟨_, h3⟩ := h
            subst h3
            have := ih b2 a2 hr
            simp [List.length]
            omega

/-- The scanning loop of `_interpolate`'s regex substitution: a tag opens at
    a double brace, extends to the first closing double brace, and matches
    when its stripped inner text has no newline (the lazy group cannot cross
    one); a failed opening emits one character and rescans.  The first
    argument is a structural-recursion bound, always instantiated with more
    fuel than the text length (every recursive call shortens the text, so
    the zero case is unreachable). -/
def interpGo : Nat → List Char → List (String × String) → List Char
  | 0, _, _ => []
  | fuel + 1, cs, ctx =>
      match cs with
      | [] => []
      | c :: rest =>
          if c = obr ∧ rest.head? = some obr then
            match findClose rest.tail with
            | some (between, after) =>
                let innerT := pyStrip ⟨between⟩
                if innerT.data.contains '\n' then
                  c :: interpGo fuel rest ctx
                else
                  (renderTag innerT ctx).data ++ interpGo fuel after ctx
            | none => c :: interpGo fuel rest ctx
          else c :: interpGo fuel rest ctx

/-- runtime.py `_interpolate`. -/
def interpolate (s : String) (ctx : List (String × String)) : String :=
  ⟨interpGo (s.data.length + 1) s.data ctx⟩

/-! ### The program data model (parser.py dataclasses) -/

/-- parser.py `Action`, with the closed set of kinds the parser emits and
    the runtime dispatches on; condition and expression text is kept
    verbatim as strings, exactly as the parser stores it. -/
inductive Action where
  | reply (text : String)
  | set (var value : String)
  | setExpr (var expr : String)
  | ask (var prompt : String)
  | ifGoto (left right target : String)
  | ifChain (branches : List (String × List Action)) (els : Option (List Action))
  | goto (target : String)
  | save (var path : String)
  | load (var path : String)

structure State where
  name : String
  actions : List Action

structure Flow where
  name : String
  states : List (String × State)

structure Program where
  flows : List (String × Flow)

/-! ### parser.py regex matchers -/

/-- Models parser.py `_IF_HEAD` / `_ELIF_HEAD` (regex
    kw, one or more whitespace, a lazy nonempty group, optional whitespace,
    a final opening brace); the group is stripped by the caller, so the
    match reduces to: starts with the keyword followed by whitespace, ends
    with an opening brace, and at least two characters stand between. -/
def matchKwHead (kw : String) (raw : String) : Option String :=
  let cs := raw.data
  if kw.data.isPrefixOf cs then
    let rest := cs.drop kw.length
    match rest with
    | c :: _ =>
        if pyWs c ∧ rest.getLast? = some obr ∧ rest.length ≥ 3 then
          some (pyStrip ⟨rest.dropLast⟩)
        else none
    | [] => none
  else none

/-- First occurrence of a double equals sign, split around it. -/
def findEqEq : List Char → Option (List Char × List Char)
  | [] => none
  | '=' :: '=' :: rest => some ([], rest)
  | c :: rest => (findEqEq rest).map (fun p => (c :: p.1, p.2))

/-- The whitespace-goto-whitespace tail pattern of `_IF_GOTO` starting at
    the current position: one or more whitespace characters, the word goto,
    one or more whitespace characters, then a nonempty remainder. -/
def gotoAt (cs : List Char) : Option (List Char) :=
  let r := cs.dropWhile pyWs
  if r.length = cs.length then none
  else if "goto".data.isPrefixOf r then
    let r2 := r.drop 4
    let r3 := r2.dropWhile pyWs
    if r3.length = r2.length then none
    else if r3 = [] then none
    else some r3
  else none

/-- Earliest split of the tail after the double equals sign into the lazy
    right-operand group and the goto target (the right operand must hold at
    least one character). -/
def findGotoSplit : List Char → List Char → Option (List Char × List Char)
  | _, [] => none
  | acc, c :: rest =>
      if acc.isEmpty then findGotoSplit [c] rest
      else
        match gotoAt (c :: rest) with
        | some b => some (acc.reverse, b)
        | none => findGotoSplit (c :: acc) rest

/-- Models parser.py `_IF_GOTO`
    (regex if, whitespace, lazy group, double equals, optional whitespace,
    lazy group, whitespace, goto, whitespace, lazy group to the end).
    Since the parser strips group 1 and 3 and `_unquote`s group 2 (which
    also strips), the lazy boundaries reduce to: the first double equals
    preceded by at least two characters after the keyword, then the
    earliest whitespace-goto-whitespace split with a nonempty operand on
    each side. -/
def matchIfGoto (raw : String) : Option (String × String × String) :=
  let cs := raw.data
  if "if".data.isPrefixOf cs then
    let rest := cs.drop 2
    match rest with
    | c :: _ =>
        if pyWs c then
          match rest with
          | a :: b :: tail =>
              match (findEqEq tail).map (fun p => (a :: b :: p.1, p.2)) with
              | some (before, tl) =>
                  match findGotoSplit [] tl with
                  | some (mid, tgt) =>
                      some (pyStrip ⟨before⟩, unquote ⟨mid⟩, pyStrip ⟨tgt⟩)
                  | none => none
              | none => none
          | _ => none
        else none
    | [] => none
  else none

/-! ### parser.py `parse` (fuel-based; see the header notes) -/

inductive PErr where
  | fuelOut
  | err (msg : String)
  deriving Repr, DecidableEq

mutual

/-- parser.py `parse_block_actions`: one statement or sub-block per
    iteration, stopping (without consuming) at a block terminator. -/
def pba : Nat → List String → List Action → Except PErr (List Action × List String)
  | 0, _, _ => .error .fuelOut
  | fuel + 1, ls, acc =>
      match ls with
      | [] => .ok (acc, [])
      | l :: rest =>
          let raw := pyStrip l
          if raw = "" || pyStarts raw "#" then pba fuel rest acc
          else if raw = "\x7d" || pyStarts raw "\x7d elif" || pyStarts raw "\x7d else" ||
                  pyStarts raw "state " || pyStarts raw "flow " then
            .ok (acc, ls)
          else
            match matchKwHead "if" raw with
            | some condIf => do
                let (thenActs, ls1) ← bodyLoop fuel rest []
                match ls1 with
                | [] => .error (.err "缺少 if 的右括号")
                | cl :: ls1t => do
                    let cur := pyStrip cl
                    let ls2 ←
                      if cur = "\x7d" then pure ls1t
                      else if pyStarts cur "\x7d elif" || pyStarts cur "\x7d else" then pure ls1
                      else Except.error (.err "缺少 if 的右括号")
                    let (branches, ls3) ← elifLoop fuel ls2 [(condIf, thenActs)]
                    let (els, ls4) ← elseClause fuel ls3
                    pba fuel ls4 (acc ++ [.ifChain branches els])
            | none =>
                if pyStarts raw "reply " then
                  pba fuel rest (acc ++ [.reply (unquote ⟨raw.data.drop 6⟩)])
                else if pyStarts raw "goto " then
                  match splitFirstChar raw.data ' ' with
                  | some (_, after) => pba fuel rest (acc ++ [.goto (pyStrip ⟨after⟩)])
                  | none => .error (.err "goto 语法错误")
                else if pyStarts raw "ask " then
                  let restS := pyStrip ⟨raw.data.drop 4⟩
                  match splitFirstChar restS.data ' ' with
                  | some (v, p) => pba fuel rest (acc ++ [.ask ⟨v⟩ (unquote ⟨p⟩)])
                  | none => .error (.err "ask 缺少提示")
                else if pyStarts raw "set " then
                  let restS := pyStrip ⟨raw.data.drop 4⟩
                  match splitFirstChar restS.data '=' with
                  | none => .error (.err "set 语法错误")
                  | some (v, rhs0) =>
                      let var := pyStrip ⟨v⟩
                      let rhs := pyStrip ⟨rhs0⟩
                      if pyStarts rhs "\"" && pyEnds rhs "\"" then
                        pba fuel rest (acc ++ [.set var (unquote rhs)])
                      else pba fuel rest (acc ++ [.setExpr var rhs])
                else
                  match matchIfGoto raw with
                  | some (lft, rgt, tgt) =>
                      pba fuel rest (acc ++ [.ifGoto lft rgt tgt])
                  | none =>
                      if pyStarts raw "save " then
                        let restS := pyStrip ⟨raw.data.drop 5⟩
                        match splitSub " to ".data restS.data with
                        | none => .error (.err "save 语法错误")
                        | some (v, p) =>
                            pba fuel rest (acc ++ [.save (pyStrip ⟨v⟩) (unquote ⟨p⟩)])
                      else if pyStarts raw "load " then
                        let restS := pyStrip ⟨raw.data.drop 5⟩
                        match splitSub " from ".data restS.data with
                        | none => .error (.err "load 语法错误")
                        | some (v, p) =>
                            pba fuel rest (acc ++ [.load (pyStrip ⟨v⟩) (unquote ⟨p⟩)])
                      else .error (.err ("无法识别的语句：" ++ raw))

/-- The then-branch and elif-branch scanning loop: run
    `parse_block_actions` until the current line starts with a closing
    brace (or input ends). -/
def bodyLoop : Nat → List String → List Action → Except PErr (List Action × List String)
  | 0, _, _ => .error .fuelOut
  | fuel + 1, ls, acc =>
      match ls with
      | [] => .ok (acc, [])
      | l :: _ =>
          if pyStarts (pyStrip l) "\x7d" then .ok (acc, ls)
          else do
            let (sub, ls2) ← pba fuel ls []
            bodyLoop fuel ls2 (acc ++ sub)

/-- The else-body scanning loop: run `parse_block_actions` until the
    current line is exactly a closing brace (or input ends). -/
def elseLoop : Nat → List String → List Action → Except PErr (List Action × List String)
  | 0, _, _ => .error .fuelOut
  | fuel + 1, ls, acc =>
      match ls with
      | [] => .ok (acc, [])
      | l :: _ =>
          if pyStrip l = "\x7d" then .ok (acc, ls)
          else do
            let (sub, ls2) ← pba fuel ls []
            elseLoop fuel ls2 (acc ++ sub)

/-- The elif-collection loop of the if-chain parser. -/
def elifLoop : Nat → List String → List (String × List Action) →
    Except PErr (List (String × List Action) × List String)
  | 0, _, _ => .error .fuelOut
  | fuel + 1, ls, branches =>
      match ls with
      | [] => .ok (branches, ls)
      | l :: lt =>
          let look := pyStrip l
          if pyStarts look "\x7d elif" then
            let part := pyStrip ⟨look.data.drop 6⟩
            if !(pyEnds part "\x7b") then .error (.err "elif 语法错误")
            else do
              let cond := pyStrip ⟨part.data.dropLast⟩
              let (eActs, ls1) ← bodyLoop fuel lt []
              match ls1 with
              | [] => .error (.err "缺少 elif 的右括号")
              | cl :: ls1t =>
                  let cur := pyStrip cl
                  if cur = "\x7d" then elifLoop fuel ls1t (branches ++ [(cond, eActs)])
                  else if pyStarts cur "\x7d elif" || pyStarts cur "\x7d else" then
                    elifLoop fuel ls1 (branches ++ [(cond, eActs)])
                  else .error (.err "缺少 elif 的右括号")
          else
            match matchKwHead "elif" look with
            | some cond => do
                let (eActs, ls1) ← bodyLoop fuel lt []
                match ls1 with
                | [] => .error (.err "缺少 elif 的右括号")
                | cl :: ls1t =>
                    let cur := pyStrip cl
                    if cur = "\x7d" then elifLoop fuel ls1t (branches ++ [(cond, eActs)])
                    else if pyStarts cur "\x7d elif" || pyStarts cur "\x7d else" then
                      elifLoop fuel ls1 (branches ++ [(cond, eActs)])
                    else .error (.err "缺少 elif 的右括号")
            | none => .ok (branches, ls)

/-- The optional else clause of the if-chain parser. -/
def elseClause : Nat → List String → Except PErr (Option (List Action) × List String)
  | 0, _ => .error .fuelOut
  | fuel + 1, ls =>
      match ls with
      | [] => .ok (none, ls)
      | l :: lt =>
          let look := pyStrip l
          if pyStarts look "\x7d else" then do
            let (ea, ls1) ← elseLoop fuel lt []
            match ls1 with
            | [] => .error (.err "缺少 else 的右括号")
            | cl :: ls1t =>
                if pyStrip cl = "\x7d" then .ok (some ea, ls1t)
                else .error (.err "缺少 else 的右括号")
          else if pyStarts look "else" then
            if look = "else \x7b" then do
              let (ea, ls1) ← elseLoop fuel lt []
              match ls1 with
              | [] => .error (.err "缺少 else 的右括号")
              | cl :: ls1t =>
                  if pyStrip cl = "\x7d" then .ok (some ea, ls1t)
                  else .error (.err "缺少 else 的右括号")
            else if look = "else" then
              match lt with
              | [] => .error (.err "else 后应为左括号")
              | nl :: lt2 =>
                  if pyStrip nl = "\x7b" then do
                    let (ea, ls1) ← elseLoop fuel lt2 []
                    match ls1 with
                    | [] => .error (.err "缺少 else 的右括号")
                    | cl :: ls1t =>
                        if pyStrip cl = "\x7d" then .ok (some ea, ls1t)
                        else .error (.err "缺少 else 的右括号")
                  else .error (.err "else 后应为左括号")
            else .error (.err "else 用法错误")
          else .ok (none, ls)

end

/-- The state-collection loop inside a flow (parser.py `parse`, inner
    while): only state and flow lines are recognised, every other line is
    skipped. -/
def flowScan : Nat → List String → List (String × State) →
    Except PErr (List (String × State) × List String)
  | 0, _, _ => .error .fuelOut
  | fuel + 1, ls, sts =>
      match ls with
      | [] => .ok (sts, [])
      | l :: rest =>
          let ln := pyStrip l
          if pyStarts ln "state " then
            match splitFirstChar ln.data ' ' with
            | some (_, nm0) => do
                let stName := pyStrip ⟨nm0⟩
                let (acts, ls2) ← pba fuel rest []
                flowScan fuel ls2 (dictSet stName ⟨stName, acts⟩ sts)
            | none => .error (.err "state 语法错误")
          else if pyStarts ln "flow " then .ok (sts, ls)
          else flowScan fuel rest sts

/-- The top-level loop of parser.py `parse`: flow lines open a flow, state
    lines at top level are fatal, everything else is skipped. -/
def topLoop : Nat → List String → List (String × Flow) →
    Except PErr (List (String × Flow))
  | 0, _, _ => .error .fuelOut
  | fuel + 1, ls, flows =>
      match ls with
      | [] => .ok flows
      | l :: rest =>
          let raw := pyStrip l
          if raw = "" || pyStarts raw "#" then topLoop fuel rest flows
          else if pyStarts raw "flow " then
            match splitFirstChar raw.data ' ' with
            | some (_, nm0) => do
                let flowName := pyStrip ⟨nm0⟩
                let (sts, ls2) ← flowScan fuel rest []
                topLoop fuel ls2 (dictSet flowName ⟨flowName, sts⟩ flows)
            | none => .error (.err "flow 语法错误")
          else if pyStarts raw "state " then .error (.err "state 必须出现在 flow 内")
          else topLoop fuel rest flows

/-- The line list fed to the parser:
    `[ln.rstrip() for ln in text.splitlines()]`. -/
def pyLines (text : String) : List String := (pySplitlines text).map pyRStrip

/-- parser.py `parse`. -/
def parse (text : String) (fuel : Nat) : Except PErr Program := do
  let flows ← topLoop fuel (pyLines text) []
  if flows.isEmpty then .error (.err "至少需要一个 flow")
  else .ok ⟨flows⟩

/-! ### The execution engine (runtime.py `Engine`) -/

/-- runtime.py `_eval_expr`: parse (via the abstract CPython parser `P`)
    then evaluate as a value. -/
def evalExprStr (P : String → Except String PyExpr) (e : String)
    (ctx : List (String × String)) : Except String Value := do
  let ast ← P e
  evalValue ast ctx

/-- runtime.py `_eval_bool` at the string level: parse then evaluate as a
    boolean. -/
def evalBoolStr (P : String → Except String PyExpr) (e : String)
    (ctx : List (String × String)) : Except String Bool := do
  let ast ← P e
  evalBool ast ctx

/-- runtime.py `_to_number` / `_compare` with the equality operator, as
    used by the legacy `if_goto` action. -/
def legacyCompareEq (a b : String) : Bool :=
  match pyFloat? a, pyFloat? b with
  | some x, some y => decide (x = y)
  | _, _ => a == b

/-- The mutable data `_exec_actions` works on: the variable context, the
    per-state reply buffer, the lines already flushed to the printer, the
    last-asked-variable marker, the log of ask-collaborator invocations,
    and the external persistence store (path, flat string object). -/
structure ExecSt where
  ctx : List (String × String)
  buffer : List String
  printed : List String
  lastAsked : Option String
  asked : List (String × String)
  store : List (String × List (String × String))

mutual

/-- runtime.py `Engine._exec_actions`: run the action list in order; a
    returned target short-circuits the rest of the list. -/
def execActs (P : String → Except String PyExpr) (askFn : String → String → String) :
    List Action → ExecSt → Except String (ExecSt × Option String)
  | [], st => .ok (st, none)
  | a :: rest, st => do
      let (st2, r) ← execAct P askFn a st
      match r with
      | some t => .ok (st2, some t)
      | none => execActs P askFn rest st2

/-- One action of `Engine._exec_actions`. -/
def execAct (P : String → Except String PyExpr) (askFn : String → String → String) :
    Action → ExecSt → Except String (ExecSt × Option String)
  | .reply t, st => .ok ({ st with buffer := st.buffer ++ [interpolate t st.ctx] }, none)
  | .set v val, st => .ok ({ st with ctx := dictSet v val st.ctx }, none)
  | .setExpr v e, st => do
      let val ← evalExprStr P e st.ctx
      .ok ({ st with
              ctx := dictSet v (match val with | .vnone => "" | x => pyStr x) st.ctx },
           none)
  | .ask v prompt, st =>
      let st2 :=
        if st.buffer.isEmpty then st
        else { st with printed := st.printed ++ st.buffer, buffer := [] }
      if (lookupStr st2.ctx v).isSome then
        .ok ({ st2 with lastAsked := some v }, none)
      else
        let ans := askFn v prompt
        .ok ({ st2 with
                ctx := dictSet v ans st2.ctx,
                asked := st2.asked ++ [(v, prompt)],
                lastAsked := some v },
             none)
  | .ifGoto left right target, st =>
      if legacyCompareEq ((lookupStr st.ctx left).getD "") right then .ok (st, some target)
      else .ok (st, none)
  | .ifChain branches els, st => do
      let (st2, r, fired) ← execBranches P askFn branches st
      match r with
      | some t => .ok (st2, some t)
      | none =>
          if fired then .ok (st2, none)
          else
            match els with
            | some ea =>
                if ea.isEmpty then .ok (st2, none)
                else execActs P askFn ea st2
            | none => .ok (st2, none)
  | .goto t, st => .ok (st, some t)
  | .save v p, st =>
      let obj := (lookupStr st.store p).getD []
      let obj2 := dictSet v ((lookupStr st.ctx v).getD "") obj
      .ok ({ st with store := dictSet p obj2 st.store }, none)
  | .load v p, st =>
      match lookupStr st.store p with
      | some obj =>
          match lookupStr obj v with
          | some val => .ok ({ st with ctx := dictSet v val st.ctx }, none)
          | none => .ok (st, none)
      | none => .ok (st, none)

/-- The branch loop of the `if_chain` action: first true condition wins;
    the boolean records whether some branch fired. -/
def execBranches (P : String → Except String PyExpr) (askFn : String → String → String) :
    List (String × List Action) → ExecSt → Except String (ExecSt × Option String × Bool)
  | [], st => .ok (st, none, false)
  | (cond, acts) :: more, st => do
      let b ← evalBoolStr P cond st.ctx
      if b then do
        let (st2, r) ← execActs P askFn acts st
        .ok (st2, r, true)
      else execBranches P askFn more st

end

/-- The shape of the optional intent-classifier collaborator
    (`DeepSeekClient.classify_intent`): utterance, candidate state names,
    excluded names, optional suggested state. -/
def Classifier : Type := String → List String → List String → Option String

/-- runtime.py `Engine` state across visits. -/
structure Engine where
  states : List (String × State)
  stateName : String
  ctx : List (String × String)
  classifier : Option Classifier
  lastAsked : Option String
  visits : List (String × Nat)
  fallbackState : Option String
  store : List (String × List (String × String))

/-- `self._visits.get(name, 0)`. -/
def visitsGet (vs : List (String × Nat)) (k : String) : Nat := (lookupStr vs k).getD 0

/-- The fallback-state resolution in `Engine.__init__`: first of the
    conventional names present among the states. -/
def pickFallback (sts : List (String × State)) : Option String :=
  if (lookupStr sts "fallback").isSome then some "fallback"
  else if (lookupStr sts "unknown").isSome then some "unknown"
  else if (lookupStr sts "end").isSome then some "end"
  else none

/-- runtime.py `Engine.__init__` (the classifier argument plays the role
    of `use_llm and self.llm_client`). -/
def engineInit (prog : Program) (flowName : String) (context : List (String × String))
    (classifier : Option Classifier) : Except String Engine :=
  match lookupStr prog.flows flowName with
  | none => .error ("找不到 flow: " ++ flowName)
  | some flow =>
      match flow.states with
      | [] => .error "该 flow 下没有任何 state"
      | (n0, _) :: _ =>
          .ok { states := flow.states, stateName := n0, ctx := context,
                classifier := classifier, lastAsked := none, visits := [],
                fallbackState := pickFallback flow.states, store := [] }

inductive RunErr where
  | runaway
  | evalE (msg : String)
  | badTarget (t : String)
  | badState (s : String)
  deriving Repr, DecidableEq

/-- Python truthiness of `self._last_asked_var`. -/
def lastAskedTruthy : Option String → Bool
  | some s => !(s == "")
  | none => false

/-- The synthetic notice line emitted when the classifier routes. -/
def llmNotice (s : String) : String := "(LLM判定意图：" ++ s ++ ")"

/-- The next-state resolution at the tail of each `run_iter` iteration,
    exactly as coded: explicit target, else the guarded classifier
    consultation, else the repeat-visit fallback; also returns the notice
    lines emitted. -/
def resolveNext (target : Option String) (classifier : Option Classifier)
    (lastAsked : Option String) (ctx : List (String × String))
    (stateNames : List String) (cur : String) (vis : Nat) (fb : Option String) :
    Option String × List String :=
  let step2 :=
    match target with
    | some t => (some t, [])
    | none =>
        match classifier with
        | some f =>
            if lastAskedTruthy lastAsked then
              let la := lastAsked.getD ""
              let userText := (lookupStr ctx la).getD ""
              match f userText stateNames [cur] with
              | some s =>
                  if s ≠ "" ∧ s ∈ stateNames ∧ s ≠ cur then (some s, [llmNotice s])
                  else (none, [])
              | none => (none, [])
            else (none, [])
        | none => (none, [])
  match step2 with
  | (some t, notes) => (some t, notes)
  | (none, notes) =>
      if fb.isSome ∧ vis ≥ 2 then (fb, notes) else (none, notes)

/-- runtime.py `Engine.run_iter`.  The Python loop raises the runaway
    error when its guard counter exceeds 2000, i.e. it performs at most
    2000 state visits; `countdown` is the number of visits still allowed
    (2000 at the start of a run), and reaching 0 is exactly the guard
    firing.  The returned list is the chronological output (printer
    flushes, buffered yields, notice lines). -/
def runLoop (P : String → Except String PyExpr) (askFn : String → String → String) :
    Nat → Engine → List String → Except RunErr (List String × Engine)
  | 0, _, _ => .error .runaway
  | countdown + 1, eng, out =>
      let vis1 := dictSet eng.stateName (visitsGet eng.visits eng.stateName + 1) eng.visits
      match lookupStr eng.states eng.stateName with
      | none => .error (.badState eng.stateName)
      | some st =>
          let est0 : ExecSt :=
            { ctx := eng.ctx, buffer := [], printed := [], lastAsked := none,
              asked := [], store := eng.store }
          match execActs P askFn st.actions est0 with
          | .error m => .error (.evalE m)
          | .ok (est, target0) =>
              let out1 := out ++ est.printed ++ est.buffer
              let stateNames := eng.states.map (fun p => p.1)
              let (target, notes) :=
                resolveNext target0 eng.classifier est.lastAsked est.ctx stateNames
                  eng.stateName (visitsGet vis1 eng.stateName) eng.fallbackState
              let out2 := out1 ++ notes
              let eng2 : Engine :=
                { eng with
                  ctx := est.ctx
                  visits := vis1
                  lastAsked := est.lastAsked
                  store := est.store }
              match target with
              | some t =>
                  if (lookupStr eng.states t).isSome then
                    runLoop P askFn countdown { eng2 with stateName := t } out2
                  else .error (.badTarget t)
              | none => .ok (out2, eng2)

/-- A complete `run_iter` consumption: 2000 permitted visits. -/
def run (P : String → Except String PyExpr) (askFn : String → String → String)
    (eng : Engine) : Except RunErr (List String × Engine) :=
  runLoop P askFn 2000 eng []

/-! ### Helper definitions for the claim statements -/

@[simp] theorem exBind_ok {ε α β : Type} (a : α) (f : α → Except ε β) :
    (Except.ok a >>= f) = f a := rfl

@[simp] theorem exBind_err {ε α β : Type} (m : ε) (f : α → Except ε β) :
    ((Except.error m : Except ε α) >>= f) = .error m := rfl

/-- A literal expression evaluating to a given value. -/
def litOf : Value → PyExpr
  | .vint n => .constInt n
  | .vfloat q => .constFloat q
  | .vstr s => .constStr s
  | .vbool b => .constBool b
  | .vnone => .constNone

theorem evalValue_litOf (v : Value) (ctx : List (String × String)) :
    evalValue (litOf v) ctx = .ok v := by
  cases v <;> simp [litOf, evalValue]

/-- The value is an (uncoerced) Python string. -/
def isStrVal : Value → Bool
  | .vstr _ => true
  | _ => false

mutual

/-- The claim's syntactic predicate: the expression contains a subscript,
    an attribute access, or a call whose callee is a name outside the
    whitelist (anywhere in the tree). -/
def hasDisallowed : PyExpr → Bool
  | .binop _ l r => hasDisallowed l || hasDisallowed r
  | .unop _ e => hasDisallowed e
  | .name _ => false
  | .constInt _ => false
  | .constFloat _ => false
  | .constStr _ => false
  | .constBool _ => false
  | .constNone => false
  | .call f args =>
      (match f with
       | .name id => decide (id ∉ FUNC_WHITELIST)
       | _ => hasDisallowed f) || hasDisallowedList args
  | .subscript _ _ => true
  | .attr _ _ => true
  | .boolop _ vals => hasDisallowedList vals
  | .compare l rest => hasDisallowed l || hasDisallowedPairs rest
  | .other => false

def hasDisallowedList : List PyExpr → Bool
  | [] => false
  | e :: rest => hasDisallowed e || hasDisallowedList rest

def hasDisallowedPairs : List (CmpK × PyExpr) → Bool
  | [] => false
  | (_, e) :: rest => hasDisallowed e || hasDisallowedPairs rest

end

/-- What the claim says numeric arithmetic does: `+ - *` total, `/` true
    division, `//` floor division, `%` modulo, division by zero fatal. -/
def arithSpec (op : BinOpK) (x y : ℚ) : Except String Value :=
  match op with
  | .add => .ok (.vfloat (x + y))
  | .sub => .ok (.vfloat (x - y))
  | .mul => .ok (.vfloat (x * y))
  | .div => if y = 0 then .error "float division by zero" else .ok (.vfloat (x / y))
  | .floordiv =>
      if y = 0 then .error "float floor division by zero"
      else .ok (.vfloat (⌊x / y⌋ : ℤ))
  | .mod =>
      if y = 0 then .error "float modulo"
      else .ok (.vfloat (x - (⌊x / y⌋ : ℤ) * y))
  | .otherOp => .error "表达式不被允许"

/-- Numeric comparison as the claim states it. -/
def numCmpSpec (op : CmpK) (x y : ℚ) : Bool :=
  match op with
  | .ceq => decide (x = y)
  | .cne => decide (x ≠ y)
  | .cgt => decide (x > y)
  | .clt => decide (x < y)
  | .cge => decide (x ≥ y)
  | .cle => decide (x ≤ y)
  | .otherCmp => false

/-- Lexicographic string comparison as the claim states it. -/
def strCmpSpec (op : CmpK) (a b : String) : Bool :=
  match op with
  | .ceq => decide (a.data = b.data)
  | .cne => decide (a.data ≠ b.data)
  | .cgt => decide (List.Lex (· < ·) b.data a.data)
  | .clt => decide (List.Lex (· < ·) a.data b.data)
  | .cge => decide (¬ List.Lex (· < ·) a.data b.data)
  | .cle => decide (¬ List.Lex (· < ·) b.data a.data)
  | .otherCmp => false

/-! ### C7: binary arithmetic -/

/-- C7.  For every binary expression with one of the six arithmetic
    operators: if both operands best-effort coerce to numbers, numeric
    arithmetic is performed (true division, floor division, modulo, with
    division by zero fatal); otherwise string concatenation applies only
    to plus on two uncoerced strings; every other combination is the fatal
    unsupported-operand-types error.  In particular 2 + 3 evaluates to 5,
    the concatenation of the string literals a and b is ab, and 1 // 0 is
    a fatal error. -/
theorem binop_semantics :
    (∀ (ctx : List (String × String)) (op : BinOpK) (l r : Value) (x y : ℚ),
      op ≠ .otherOp → coerceNum l = some x → coerceNum r = some y →
      evalValue (.binop op (litOf l) (litOf r)) ctx = arithSpec op x y)
    ∧ (∀ (ctx : List (String × String)) (s1 s2 : String),
      pyFloat? s1 = none ∨ pyFloat? s2 = none →
      evalValue (.binop .add (.constStr s1) (.constStr s2)) ctx = .ok (.vstr (s1 ++ s2)))
    ∧ (∀ (ctx : List (String × String)) (op : BinOpK) (l r : Value),
      op ≠ .otherOp → (coerceNum l = none ∨ coerceNum r = none) →
      (op = .add → ¬(isStrVal l = true ∧ isStrVal r = true)) →
      evalValue (.binop op (litOf l) (litOf r)) ctx = .error "仅支持数字算术或字符串相加")
    ∧ evalValue (.binop .add (.constInt 2) (.constInt 3)) [] = .ok (.vfloat 5)
    ∧ evalValue (.binop .add (.constStr "a") (.constStr "b")) [] = .ok (.vstr "ab")
    ∧ evalValue (.binop .floordiv (.constInt 1) (.constInt 0)) []
        = .error "float floor division by zero" := by
  refine ⟨?_, ?_, ?_, ?_, ?_, ?_⟩
  · intro ctx op l r x y hop hx hy
    cases op <;>
      simp [evalValue, evalValue_litOf, hx, hy, arithSpec, Except.bind] at hop ⊢
  · intro ctx s1 s2 h
    rcases h with h | h <;>
      simp [evalValue, Except.bind, coerceNum, h]
  · intro ctx op l r hop hco hstr
    cases op <;> simp at hop <;>
      [skip; skip; skip; skip; skip; skip] <;>
      rcases hco with h | h <;>
      simp [evalValue, evalValue_litOf, Except.bind, h] <;>
      cases l <;> cases r <;> simp_all [isStrVal, coerceNum]
  · simp [evalValue, Except.bind, coerceNum]
    norm_num
  · simp [evalValue, Except.bind, coerceNum, pyFloat?, stripList, pyWs, parseUFloat]
  · simp [evalValue, Except.bind, coerceNum]

/-! ### C8: comparison semantics -/

theorem evalChain_step (cur rv : Value) (op : CmpK) (comp : PyExpr)
    (rest : List (CmpK × PyExpr)) (ctx : List (String × String)) (b : Bool)
    (hop : op ≠ .otherCmp) (hrv : evalValue comp ctx = .ok rv)
    (hb : doCompare cur op rv = .ok b) :
    evalChain cur ((op, comp) :: rest) ctx
      = if b then evalChain rv rest ctx else .ok false := by
  cases op <;> simp_all [evalChain] <;> cases b <;> simp_all

/-- C8.  A comparison coerces both sides to numbers when possible and
    compares numerically, otherwise compares the string forms
    lexicographically; a chained comparison evaluates operands left to
    right, conjoins the pairwise comparisons, and short-circuits to false
    at the first failing pair (the third operand of a failing chain is
    never evaluated, hence arbitrary); 10 gt 9 on strings is numeric and
    true, b gt a is lexicographic and true. -/
theorem compare_semantics :
    (∀ (a b : Value) (op : CmpK) (x y : ℚ), op ≠ .otherCmp →
      toNumberMaybe a = some x → toNumberMaybe b = some y →
      doCompare a op b = .ok (numCmpSpec op x y))
    ∧ (∀ (a b : Value) (op : CmpK), op ≠ .otherCmp →
      (toNumberMaybe a = none ∨ toNumberMaybe b = none) →
      doCompare a op b = .ok (strCmpSpec op (pyStr a) (pyStr b)))
    ∧ (∀ (ctx : List (String × String)) (va vb : Value) (e2 : PyExpr) (op1 op2 : CmpK),
      op1 ≠ .otherCmp → doCompare va op1 vb = .ok false →
      evalBool (.compare (litOf va) [(op1, litOf vb), (op2, e2)]) ctx = .ok false)
    ∧ (∀ (ctx : List (String × String)) (va vb vc : Value) (op1 op2 : CmpK) (b1 b2 : Bool),
      op1 ≠ .otherCmp → op2 ≠ .otherCmp →
      doCompare va op1 vb = .ok b1 → doCompare vb op2 vc = .ok b2 →
      evalBool (.compare (litOf va) [(op1, litOf vb), (op2, litOf vc)]) ctx
        = .ok (b1 && b2))
    ∧ evalBool (.compare (.constStr "10") [(.cgt, .constStr "9")]) [] = .ok true
    ∧ evalBool (.compare (.constStr "b") [(.cgt, .constStr "a")]) [] = .ok true := by
  refine ⟨?_, ?_, ?_, ?_, ?_, ?_⟩
  · intro a b op x y hop hx hy
    cases op <;>
      simp_all [doCompare, asNumbers, numCmpSpec, GT.gt, GE.ge]
  · intro a b op hop h
    have hn : asNumbers a b = none := by
      rcases h with h | h <;> simp [asNumbers, h] <;> cases toNumberMaybe a <;> simp
    cases op <;> simp_all [doCompare, strCmpSpec]
  · intro ctx va vb e2 op1 op2 hop h
    simp only [evalBool, evalValue_litOf, exBind_ok]
    rw [evalChain_step va vb op1 (litOf vb) [(op2, e2)] ctx false hop
      (evalValue_litOf vb ctx) h]
    simp
  · intro ctx va vb vc op1 op2 b1 b2 hop1 hop2 h1 h2
    simp only [evalBool, evalValue_litOf, exBind_ok]
    rw [evalChain_step va vb op1 (litOf vb) [(op2, litOf vc)] ctx b1 hop1
      (evalValue_litOf vb ctx) h1]
    cases b1 with
    | false => simp
    | true =>
        simp only [if_true]
        rw [evalChain_step vb vc op2 (litOf vc) [] ctx b2 hop2
          (evalValue_litOf vc ctx) h2]
        cases b2 <;> simp [evalChain]
  · simp only [evalBool, evalValue, exBind_ok]
    rw [evalChain_step (.vstr "10") (.vstr "9") .cgt (.constStr "9") [] []
      true (by decide) (by simp [evalValue]) (by rfl)]
    simp [evalChain]
  · simp only [evalBool, evalValue, exBind_ok]
    rw [evalChain_step (.vstr "b") (.vstr "a") .cgt (.constStr "a") [] []
      true (by decide) (by simp [evalValue]) (by rfl)]
    simp [evalChain]

/-! ### C9: interpolation -/

/-- C9.  A tag resolves its variable to the empty string when absent from
    the context; filters apply left to right; upper, lower, title, trim
    transform the string, default replaces an empty string by its
    argument, and an unrecognized filter name passes the value through
    unchanged; a tag is rendered by the parsed pipeline; and the canonical
    example with default yields Hello there. -/
theorem interpolation_semantics :
    (∀ (ctx : List (String × String)) (var : String)
        (fs : List (String × Option String)),
      lookupStr ctx var = none →
      renderCore var fs ctx = fs.foldl (fun v p => applyFilter v p.1 p.2) "")
    ∧ (∀ (ctx : List (String × String)) (var : String)
        (fs1 fs2 : List (String × Option String)),
      renderCore var (fs1 ++ fs2) ctx
        = fs2.foldl (fun v p => applyFilter v p.1 p.2) (renderCore var fs1 ctx))
    ∧ (∀ (s : String) (a : Option String),
      applyFilter s "upper" a = pyUpper s
      ∧ applyFilter s "lower" a = pyLower s
      ∧ applyFilter s "title" a = pyTitle s
      ∧ applyFilter s "trim" a = pyStrip s
      ∧ applyFilter s "default" a = (if s = "" then a.getD "" else s))
    ∧ (∀ (s n : String) (a : Option String),
      asciiLower n ∉ ["upper", "lower", "title", "trim", "default"] →
      applyFilter s n a = s)
    ∧ (∀ (inner : String) (ctx : List (String × String)),
      renderTag inner ctx
        = renderCore (parsePipeline inner).1 (parsePipeline inner).2 ctx)
    ∧ interpolate "Hello \x7b\x7bname|default:\"there\"\x7d\x7d" [] = "Hello there" := by
  refine ⟨?_, ?_, ?_, ?_, ?_, ?_⟩
  · intro ctx var fs h
    simp [renderCore, h]
  · intro ctx var fs1 fs2
    simp [renderCore, List.foldl_append]
  · intro s a
    have e1 : asciiLower "upper" = "upper" := by decide
    have e2 : asciiLower "lower" = "lower" := by decide
    have e3 : asciiLower "title" = "title" := by decide
    have e4 : asciiLower "trim" = "trim" := by decide
    have e5 : asciiLower "default" = "default" := by decide
    refine ⟨by simp [applyFilter, e1], by simp [applyFilter, e2],
      by simp [applyFilter, e3], by simp [applyFilter, e4], ?_⟩
    by_cases h : s = "" <;> simp [applyFilter, e5, h]
  · intro s n a h
    simp at h
    obtain ⟨h1, h2, h3, h4, h5⟩ := h
    simp [applyFilter, h1, h2, h3, h4, h5]
  · intro inner ctx
    rfl
  · rfl

/-! ### C1: the whitelist guarantee -/

theorem hasDis_binop_arith (op : BinOpK) (l r : PyExpr)
    (ctx : List (String × String)) (hop : op ≠ .otherOp)
    (h : (∃ m, evalValue l ctx = .error m) ∨
         (∃ m, evalValue r ctx = .error m)) :
    ∃ m, evalValue (.binop op l r) ctx = .error m := by
  rcases h with ⟨m, hm⟩ | ⟨m, hm⟩
  · cases op <;> simp_all [evalValue]
  · cases op <;> [skip; skip; skip; skip; skip; skip; exact absurd rfl hop] <;>
      (cases hx : evalValue l ctx with
       | error m2 => exact ⟨m2, by simp [evalValue, hx]⟩
       | ok v => exact ⟨m, by simp [evalValue, hx, hm]⟩)

mutual

theorem hasDis_value (e : PyExpr) (ctx : List (String × String))
    (h : hasDisallowed e = true) : ∃ m, evalValue e ctx = .error m := by
  match e with
  | .binop op l r =>
      by_cases hop : op = BinOpK.otherOp
      · subst hop
        exact ⟨"表达式不被允许", by simp [evalValue]⟩
      · simp only [hasDisallowed, Bool.or_eq_true] at h
        refine hasDis_binop_arith op l r ctx hop ?_
        rcases h with h | h
        · exact Or.inl (hasDis_value l ctx h)
        · exact Or.inr (hasDis_value r ctx h)
  | .unop op e1 =>
      cases op with
      | unot => exact ⟨"表达式不被允许", by simp [evalValue]⟩
      | otherUn => exact ⟨"表达式不被允许", by simp [evalValue]⟩
      | uadd =>
          obtain ⟨m, hm⟩ := hasDis_value e1 ctx (by simpa [hasDisallowed] using h)
          exact ⟨m, by simp [evalValue, hm]⟩
      | usub =>
          obtain ⟨m, hm⟩ := hasDis_value e1 ctx (by simpa [hasDisallowed] using h)
          exact ⟨m, by simp [evalValue, hm]⟩
  | .name id => simp [hasDisallowed] at h
  | .constInt n => simp [hasDisallowed] at h
  | .constFloat q => simp [hasDisallowed] at h
  | .constStr s => simp [hasDisallowed] at h
  | .constBool b => simp [hasDisallowed] at h
  | .constNone => simp [hasDisallowed] at h
  | .call f args =>
      match f with
      | .name id =>
          simp only [hasDisallowed, Bool.or_eq_true, decide_eq_true_eq] at h
          by_cases hid : id ∈ FUNC_WHITELIST
          · have hargs : hasDisallowedList args = true := by
              rcases h with h | h
              · exact absurd hid h
              · exact h
            obtain ⟨m, hm⟩ := hasDis_args args ctx hargs
            exact ⟨m, by simp [evalValue, hid, hm]⟩
          · exact ⟨"仅允许白名单函数调用", by simp [evalValue, hid]⟩
      | .binop op l r => exact ⟨"仅允许白名单函数调用", by simp [evalValue]⟩
      | .unop op e1 => exact ⟨"仅允许白名单函数调用", by simp [evalValue]⟩
      | .constInt n => exact ⟨"仅允许白名单函数调用", by simp [evalValue]⟩
      | .constFloat q => exact ⟨"仅允许白名单函数调用", by simp [evalValue]⟩
      | .constStr s => exact ⟨"仅允许白名单函数调用", by simp [evalValue]⟩
      | .constBool b => exact ⟨"仅允许白名单函数调用", by simp [evalValue]⟩
      | .constNone => exact ⟨"仅允许白名单函数调用", by simp [evalValue]⟩
      | .call f2 args2 => exact ⟨"仅允许白名单函数调用", by simp [evalValue]⟩
      | .subscript v i => exact ⟨"仅允许白名单函数调用", by simp [evalValue]⟩
      | .attr v a => exact ⟨"仅允许白名单函数调用", by simp [evalValue]⟩
      | .boolop op vals => exact ⟨"仅允许白名单函数调用", by simp [evalValue]⟩
      | .compare l rest => exact ⟨"仅允许白名单函数调用", by simp [evalValue]⟩
      | .other => exact ⟨"仅允许白名单函数调用", by simp [evalValue]⟩
  | .subscript v i => exact ⟨"不允许下标或属性访问", by simp [evalValue]⟩
  | .attr v a => exact ⟨"不允许下标或属性访问", by simp [evalValue]⟩
  | .boolop op vals => exact ⟨"表达式不被允许", by simp [evalValue]⟩
  | .compare l rest => exact ⟨"表达式不被允许", by simp [evalValue]⟩
  | .other => exact ⟨"表达式不被允许", by simp [evalValue]⟩

theorem hasDis_args (l : List PyExpr) (ctx : List (String × String))
    (h : hasDisallowedList l = true) : ∃ m, evalArgs l ctx = .error m := by
  match l with
  | [] => simp [hasDisallowedList] at h
  | e :: rest =>
      simp only [hasDisallowedList, Bool.or_eq_true] at h
      by_cases he : hasDisallowed e = true
      · obtain ⟨m, hm⟩ := hasDis_value e ctx he
        exact ⟨m, by simp [evalArgs, hm]⟩
      · have hrest : hasDisallowedList rest = true := by
          rcases h with h | h
          · exact absurd h he
          · exact h
        obtain ⟨m, hm⟩ := hasDis_args rest ctx hrest
        cases hx : evalValue e ctx with
        | error m2 => exact ⟨m2, by simp [evalArgs, hx]⟩
        | ok v => exact ⟨m, by simp [evalArgs, hx, hm]⟩

end

/-- C1 counterexample.  The boolean expression 1 or x[0] contains a
    subscript, yet boolean evaluation short-circuits on the truthy left
    operand and succeeds with true instead of raising. -/
theorem whitelist_claim_counterexample :
    hasDisallowed (.boolop .bOr [.constInt 1, .subscript (.name "x") (.constInt 0)])
      = true
    ∧ evalBool (.boolop .bOr [.constInt 1, .subscript (.name "x") (.constInt 0)]) []
      = .ok true := by
  constructor
  · simp [hasDisallowed, hasDisallowedList]
  · simp [evalBool, evalOr, evalTruthyVia, evalValue, pyTruthy]

/-- C1 (amended).  Value-expression evaluation is eager, so an expression
    containing a subscript, an attribute access, or a call to a name
    outside the whitelist always raises; at the boolean level a disallowed
    construct raises whenever it is actually evaluated (top-level
    subscripts, attribute accesses and non-whitelisted calls shown here),
    but a construct skipped by and/or short-circuit or a failed comparison
    chain is never reached (see the counterexample). -/
theorem whitelist_guarantee :
    (∀ (e : PyExpr) (ctx : List (String × String)),
      hasDisallowed e = true → ∃ m, evalValue e ctx = .error m)
    ∧ (∀ (v i : PyExpr) (ctx : List (String × String)),
      ∃ m, evalBool (.subscript v i) ctx = .error m)
    ∧ (∀ (v : PyExpr) (a : String) (ctx : List (String × String)),
      ∃ m, evalBool (.attr v a) ctx = .error m)
    ∧ (∀ (id : String) (args : List PyExpr) (ctx : List (String × String)),
      id ∉ FUNC_WHITELIST → ∃ m, evalBool (.call (.name id) args) ctx = .error m) := by
  refine ⟨hasDis_value, ?_, ?_, ?_⟩
  · intro v i ctx
    exact ⟨"不允许的布尔表达式：" ++ reprStr (PyExpr.subscript v i), by simp [evalBool]⟩
  · intro v a ctx
    exact ⟨"不允许的布尔表达式：" ++ reprStr (PyExpr.attr v a), by simp [evalBool]⟩
  · intro id args ctx hid
    exact ⟨"仅允许白名单函数调用", by simp [evalBool, evalTruthyVia, evalValue, hid]⟩

/-- C1 witness: a concrete instantiation of the amended theorem at a
    subscript expression. -/
theorem whitelist_guarantee_witness :
    (hasDisallowed (.subscript (.name "x") (.constInt 0)) = true)
    ∧ (∃ m, evalValue (.subscript (.name "x") (.constInt 0)) [] = .error m)
    ∧ (∃ m, evalBool (.call (.name "eval") [.constStr "1"]) [] = .error m) := by
  refine ⟨by simp [hasDisallowed], ?_, ?_⟩
  · exact whitelist_guarantee.1 (.subscript (.name "x") (.constInt 0)) []
      (by simp [hasDisallowed])
  · exact whitelist_guarantee.2.2.2 "eval" [.constStr "1"] [] (by decide)

/-- C7 witness: the numeric and error conjuncts instantiated at concrete
    operands (the string 2 coerces, the multiplication is numeric; None
    does not coerce and plus on it is the fatal error). -/
theorem binop_semantics_witness :
    evalValue (.binop .mul (litOf (.vstr "2")) (litOf (.vint 3))) []
      = arithSpec .mul 2 3
    ∧ evalValue (.binop .mul (litOf .vnone) (litOf (.vint 3))) []
      = .error "仅支持数字算术或字符串相加" := by
  constructor
  · exact binop_semantics.1 [] .mul (.vstr "2") (.vint 3) 2 3 (by decide)
      (by decide) (by decide)
  · exact binop_semantics.2.2.1 [] .mul .vnone (.vint 3) (by decide)
      (Or.inl (by decide)) (by simp)

/-- C8 witness: the numeric and lexicographic conjuncts instantiated at
    concrete values. -/
theorem compare_semantics_witness :
    doCompare (.vstr "10") .cgt (.vstr "9") = .ok (numCmpSpec .cgt 10 9)
    ∧ doCompare (.vstr "b") .cgt (.vstr "a")
        = .ok (strCmpSpec .cgt (pyStr (.vstr "b")) (pyStr (.vstr "a"))) := by
  constructor
  · exact compare_semantics.1 (.vstr "10") (.vstr "9") .cgt 10 9 (by decide)
      (by decide) (by decide)
  · exact compare_semantics.2.1 (.vstr "b") (.vstr "a") .cgt (by decide)
      (Or.inl (by decide))

/-- C9 witness: the absent-variable and unknown-filter conjuncts at
    concrete inputs. -/
theorem interpolation_semantics_witness :
    renderCore "name" [("default", some "there")] []
      = [("default", some "there")].foldl (fun v p => applyFilter v p.1 p.2) ""
    ∧ applyFilter "keep" "sparkle" none = "keep" := by
  constructor
  · exact interpolation_semantics.1 [] "name" [("default", some "there")] (by decide)
  · exact interpolation_semantics.2.2.2.1 "keep" "sparkle" none (by decide)

/-! ### C3: the ask action -/

/-- C3 counterexample.  With the variable already bound and a nonempty
    reply buffer, executing the Ask action still flushes the buffer to the
    printer and still records the variable as last asked — contradicting
    the claim that the action is skipped entirely (the claim's other
    conjuncts, no collaborator call and unchanged context, do hold). -/
theorem ask_skip_counterexample :
    execActs (fun s => .error s) (fun _ _ => "ans") [.ask "x" "p"]
        { ctx := [("x", "1")], buffer := ["hi"], printed := [],
          lastAsked := none, asked := [], store := [] }
      = .ok ({ ctx := [("x", "1")], buffer := [], printed := ["hi"],
               lastAsked := some "x", asked := [], store := [] }, none) := by
  simp [execActs, execAct, lookupStr, List.find?]

/-- C3 (amended).  When the variable is already present the engine issues
    no prompt, does not invoke the ask collaborator, and leaves the
    context unchanged, but it still flushes the output buffer and still
    records the variable as the last asked one; when the variable is
    absent it flushes, obtains the answer, stores it, logs the
    collaborator invocation, and records the variable. -/
theorem ask_action_semantics :
    ∀ (P : String → Except String PyExpr) (askFn : String → String → String)
      (v prompt : String) (rest : List Action) (st : ExecSt),
    ((lookupStr st.ctx v).isSome →
      execActs P askFn (.ask v prompt :: rest) st =
        execActs P askFn rest
          { st with buffer := [], printed := st.printed ++ st.buffer,
                    lastAsked := some v })
    ∧ (lookupStr st.ctx v = none →
      execActs P askFn (.ask v prompt :: rest) st =
        execActs P askFn rest
          { st with buffer := [], printed := st.printed ++ st.buffer,
                    ctx := dictSet v (askFn v prompt) st.ctx,
                    asked := st.asked ++ [(v, prompt)],
                    lastAsked := some v }) := by
  intro P askFn v prompt rest st
  obtain ⟨ctx, buffer, printed, lastAsked, asked, store⟩ := st
  constructor
  · intro h
    cases buffer <;> simp_all [execActs, execAct]
  · intro h
    cases buffer <;> simp_all [execActs, execAct]

/-- C3 witness: the amended theorem applied in both branches at concrete
    states. -/
theorem ask_action_semantics_witness :
    execActs (fun s => Except.error s) (fun _ _ => "ans") [.ask "x" "p"]
        { ctx := [("x", "1")], buffer := ["hi"], printed := [],
          lastAsked := none, asked := [], store := [] }
      = execActs (fun s => Except.error s) (fun _ _ => "ans") []
          { ctx := [("x", "1")], buffer := [], printed := ["hi"],
            lastAsked := some "x", asked := [], store := [] }
    ∧ execActs (fun s => Except.error s) (fun _ _ => "ans") [.ask "y" "p"]
        { ctx := [("x", "1")], buffer := [], printed := [],
          lastAsked := none, asked := [], store := [] }
      = execActs (fun s => Except.error s) (fun _ _ => "ans") []
          { ctx := dictSet "y" "ans" [("x", "1")], buffer := [], printed := [],
            lastAsked := some "y", asked := [("y", "p")], store := [] } := by
  constructor
  · exact (ask_action_semantics (fun s => Except.error s) (fun _ _ => "ans")
      "x" "p" [] _).1 (by decide)
  · exact (ask_action_semantics (fun s => Except.error s) (fun _ _ => "ans")
      "y" "p" [] _).2 (by decide)

/-! ### C6: if-chains -/

theorem execBranches_skip (P : String → Except String PyExpr)
    (askFn : String → String → String) (pre brs : List (String × List Action))
    (st : ExecSt) (h : ∀ b ∈ pre, evalBoolStr P b.1 st.ctx = .ok false) :
    execBranches P askFn (pre ++ brs) st = execBranches P askFn brs st := by
  induction pre with
  | nil => rfl
  | cons b pre2 ih =>
      obtain ⟨c, acts⟩ := b
      have hc : evalBoolStr P c st.ctx = .ok false := h (c, acts) (by simp)
      have ih2 := ih (fun b2 hb2 => h b2 (by simp [hb2]))
      simp [execBranches, hc, ih2]

theorem execActs_cons (P : String → Except String PyExpr)
    (askFn : String → String → String) (a : Action) (rest : List Action)
    (st : ExecSt) :
    execActs P askFn (a :: rest) st =
      (match execAct P askFn a st with
       | .error m => .error m
       | .ok (st2, some t) => .ok (st2, some t)
       | .ok (st2, none) => execActs P askFn rest st2) := by
  cases hx : execAct P askFn a st with
  | error m => simp [execActs, hx]
  | ok p =>
      obtain ⟨st2, r⟩ := p
      cases r <;> simp [execActs, hx]

theorem execAct_ifChain_err (P : String → Except String PyExpr)
    (askFn : String → String → String) (branches : List (String × List Action))
    (els : Option (List Action)) (st : ExecSt) (m : String)
    (hx : execBranches P askFn branches st = .error m) :
    execAct P askFn (.ifChain branches els) st = .error m := by
  unfold execAct
  rw [hx]
  rfl

theorem execAct_ifChain_target (P : String → Except String PyExpr)
    (askFn : String → String → String) (branches : List (String × List Action))
    (els : Option (List Action)) (st st2 : ExecSt) (t : String) (fired : Bool)
    (hx : execBranches P askFn branches st = .ok (st2, some t, fired)) :
    execAct P askFn (.ifChain branches els) st = .ok (st2, some t) := by
  unfold execAct
  rw [hx]
  rfl

theorem execAct_ifChain_fired (P : String → Except String PyExpr)
    (askFn : String → String → String) (branches : List (String × List Action))
    (els : Option (List Action)) (st st2 : ExecSt)
    (hx : execBranches P askFn branches st = .ok (st2, none, true)) :
    execAct P askFn (.ifChain branches els) st = .ok (st2, none) := by
  unfold execAct
  rw [hx]
  rfl

theorem execAct_ifChain_nofire (P : String → Except String PyExpr)
    (askFn : String → String → String) (branches : List (String × List Action))
    (els : Option (List Action)) (st st2 : ExecSt)
    (hx : execBranches P askFn branches st = .ok (st2, none, false)) :
    execAct P askFn (.ifChain branches els) st =
      (match els with
       | some ea => if ea.isEmpty then .ok (st2, none) else execActs P askFn ea st2
       | none => .ok (st2, none)) := by
  unfold execAct
  rw [hx]
  rfl

theorem execBranches_first_true (P : String → Except String PyExpr)
    (askFn : String → String → String) (c : String) (bacts : List Action)
    (post : List (String × List Action)) (st : ExecSt)
    (hc : evalBoolStr P c st.ctx = .ok true) :
    execBranches P askFn ((c, bacts) :: post) st =
      (match execActs P askFn bacts st with
       | .error m => .error m
       | .ok (st2, r) => .ok (st2, r, true)) := by
  cases hx : execActs P askFn bacts st with
  | error m => simp [execBranches, hc, hx]
  | ok p =>
      obtain ⟨st2, r⟩ := p
      simp [execBranches, hc, hx]

/-- C6.  IfChain runs the first branch whose condition is true and never
    evaluates later branch conditions (the trailing branches are
    arbitrary); with no true branch the else-list runs; with no true
    branch and no else-list execution continues with the following
    statements on an unchanged state; and a transition produced inside a
    branch body propagates out immediately, skipping the rest of the
    current and enclosing lists. -/
theorem ifchain_semantics :
    (∀ (P : String → Except String PyExpr) (askFn : String → String → String)
        (pre : List (String × List Action)) (c : String) (bacts : List Action)
        (post : List (String × List Action)) (els : Option (List Action))
        (rest : List Action) (st : ExecSt),
      (∀ b ∈ pre, evalBoolStr P b.1 st.ctx = .ok false) →
      evalBoolStr P c st.ctx = .ok true →
      execActs P askFn (.ifChain (pre ++ (c, bacts) :: post) els :: rest) st =
        (do
          let (st2, r) ← execActs P askFn bacts st
          match r with
          | some t => Except.ok (st2, some t)
          | none => execActs P askFn rest st2))
    ∧ (∀ (P : String → Except String PyExpr) (askFn : String → String → String)
        (branches : List (String × List Action)) (ea : List Action)
        (rest : List Action) (st : ExecSt),
      (∀ b ∈ branches, evalBoolStr P b.1 st.ctx = .ok false) →
      execActs P askFn (.ifChain branches (some ea) :: rest) st =
        (do
          let (st2, r) ← execActs P askFn ea st
          match r with
          | some t => Except.ok (st2, some t)
          | none => execActs P askFn rest st2))
    ∧ (∀ (P : String → Except String PyExpr) (askFn : String → String → String)
        (branches : List (String × List Action)) (rest : List Action) (st : ExecSt),
      (∀ b ∈ branches, evalBoolStr P b.1 st.ctx = .ok false) →
      execActs P askFn (.ifChain branches none :: rest) st
        = execActs P askFn rest st)
    ∧ (∀ (P : String → Except String PyExpr) (askFn : String → String → String)
        (pre : List (String × List Action)) (c : String) (bacts : List Action)
        (post : List (String × List Action)) (els : Option (List Action))
        (rest : List Action) (st st2 : ExecSt) (t : String),
      (∀ b ∈ pre, evalBoolStr P b.1 st.ctx = .ok false) →
      evalBoolStr P c st.ctx = .ok true →
      execActs P askFn bacts st = .ok (st2, some t) →
      execActs P askFn (.ifChain (pre ++ (c, bacts) :: post) els :: rest) st
        = .ok (st2, some t)) := by
  have main : ∀ (P : String → Except String PyExpr)
      (askFn : String → String → String)
      (pre : List (String × List Action)) (c : String) (bacts : List Action)
      (post : List (String × List Action)) (els : Option (List Action))
      (rest : List Action) (st : ExecSt),
      (∀ b ∈ pre, evalBoolStr P b.1 st.ctx = .ok false) →
      evalBoolStr P c st.ctx = .ok true →
      execActs P askFn (.ifChain (pre ++ (c, bacts) :: post) els :: rest) st =
        (do
          let (st2, r) ← execActs P askFn bacts st
          match r with
          | some t => Except.ok (st2, some t)
          | none => execActs P askFn rest st2) := by
    intro P askFn pre c bacts post els rest st hpre hc
    have hskip := execBranches_skip P askFn pre ((c, bacts) :: post) st hpre
    have hfirst := execBranches_first_true P askFn c bacts post st hc
    rw [execActs_cons]
    cases hb : execActs P askFn bacts st with
    | error m =>
        rw [execAct_ifChain_err P askFn _ els st m (by rw [hskip, hfirst, hb])]
        simp [hb]
    | ok p =>
        obtain ⟨st2, r⟩ := p
        cases r with
        | some t =>
            rw [execAct_ifChain_target P askFn _ els st st2 t true
              (by rw [hskip, hfirst, hb])]
            simp [hb]
        | none =>
            rw [execAct_ifChain_fired P askFn _ els st st2
              (by rw [hskip, hfirst, hb])]
            simp [hb]
  have noneCase : ∀ (P : String → Except String PyExpr)
      (askFn : String → String → String)
      (branches : List (String × List Action)) (st : ExecSt),
      (∀ b ∈ branches, evalBoolStr P b.1 st.ctx = .ok false) →
      execBranches P askFn branches st = .ok (st, none, false) := by
    intro P askFn branches st hall
    have := execBranches_skip P askFn branches [] st hall
    simpa [execBranches] using this
  refine ⟨main, ?_, ?_, ?_⟩
  · intro P askFn branches ea rest st hall
    have hnc := noneCase P askFn branches st hall
    rw [execActs_cons, execAct_ifChain_nofire P askFn branches (some ea) st st hnc]
    by_cases hea : ea = []
    · subst hea
      simp [execActs]
    · have h2 : ea.isEmpty = false := by
        cases ea with
        | nil => exact absurd rfl hea
        | cons a l => rfl
      cases hb : execActs P askFn ea st with
      | error m => simp [h2, hb]
      | ok p =>
          obtain ⟨st2, r⟩ := p
          cases r <;> simp [h2, hb]
  · intro P askFn branches rest st hall
    have hnc := noneCase P askFn branches st hall
    rw [execActs_cons, execAct_ifChain_nofire P askFn branches none st st hnc]
  · intro P askFn pre c bacts post els rest st st2 t hpre hc hb
    rw [main P askFn pre c bacts post els rest st hpre hc]
    simp [hb]

/-- C6 witness: a two-branch chain at a concrete parser (first condition
    false, second true) and a goto propagating out of the branch body. -/
theorem ifchain_semantics_witness :
    execActs (fun s => if s = "t" then .ok (.constBool true)
                       else .ok (.constBool false))
      (fun _ _ => "a")
      [.ifChain [("f", [.reply "no"]), ("t", [.goto "b"])] none, .reply "after"]
      { ctx := [], buffer := [], printed := [], lastAsked := none,
        asked := [], store := [] }
      = .ok ({ ctx := [], buffer := [], printed := [], lastAsked := none,
               asked := [], store := [] }, some "b") := by
  have h := ifchain_semantics.2.2.2
    (fun s => if s = "t" then Except.ok (PyExpr.constBool true)
              else Except.ok (PyExpr.constBool false))
    (fun _ _ => "a") [("f", [.reply "no"])] "t" [.goto "b"] [] none [.reply "after"]
    { ctx := [], buffer := [], printed := [], lastAsked := none,
      asked := [], store := [] }
    { ctx := [], buffer := [], printed := [], lastAsked := none,
      asked := [], store := [] }
    "b"
    (by
      intro b hb
      simp at hb
      subst hb
      simp [evalBoolStr, evalBool, evalTruthyVia, evalValue, pyTruthy])
    (by simp [evalBoolStr, evalBool, evalTruthyVia, evalValue, pyTruthy])
    (by simp [execActs, execAct])
  simpa using h

/-! ### C10: which lines are silently skipped by the parser -/

theorem topLoop_state_err (l : String) (rest : List String)
    (flows : List (String × Flow)) (fuel : Nat)
    (h1 : pyStarts (pyStrip l) "state " = true) :
    topLoop (fuel + 1) (l :: rest) flows
      = .error (.err "state 必须出现在 flow 内") := by
  cases hd : (pyStrip l).data with
  | nil => simp [pyStarts, hd, List.isPrefixOf] at h1
  | cons c cs =>
      have hc : c = 's' := by
        simp [pyStarts, hd, List.isPrefixOf] at h1
        exact h1.1.symm
      subst hc
      have h2 : pyStrip l ≠ "" := by
        intro he
        rw [he] at hd
        simp at hd
      have h3 : pyStarts (pyStrip l) "#" = false := by
        simp [pyStarts, hd, List.isPrefixOf]
      have h4 : pyStarts (pyStrip l) "flow " = false := by
        simp [pyStarts, hd, List.isPrefixOf]
      simp [topLoop, h1, h2, h3, h4]

/-- C10.  The fatal unrecognized-statement error is raised only inside a
    state block: at top level a non-blank non-comment line that opens no
    flow and is not a state line is skipped; inside a flow but outside any
    state block every line that opens no state and no flow is skipped;
    inside a state block a line matching no statement and no block
    terminator is the fatal unrecognized-statement error; and a state line
    at top level is the distinct state-outside-flow error. -/
theorem junk_line_handling :
    (∀ (junk : String) (rest : List String) (flows : List (String × Flow)) (fuel : Nat),
      pyStrip junk ≠ "" →
      pyStarts (pyStrip junk) "#" = false →
      pyStarts (pyStrip junk) "flow " = false →
      pyStarts (pyStrip junk) "state " = false →
      topLoop (fuel + 1) (junk :: rest) flows = topLoop fuel rest flows)
    ∧ (∀ (junk : String) (rest : List String) (sts : List (String × State)) (fuel : Nat),
      pyStarts (pyStrip junk) "state " = false →
      pyStarts (pyStrip junk) "flow " = false →
      flowScan (fuel + 1) (junk :: rest) sts = flowScan fuel rest sts)
    ∧ (∀ (junk : String) (rest : List String) (acc : List Action) (fuel : Nat),
      pyStrip junk ≠ "" →
      pyStarts (pyStrip junk) "#" = false →
      pyStrip junk ≠ "\x7d" →
      pyStarts (pyStrip junk) "\x7d elif" = false →
      pyStarts (pyStrip junk) "\x7d else" = false →
      pyStarts (pyStrip junk) "state " = false →
      pyStarts (pyStrip junk) "flow " = false →
      matchKwHead "if" (pyStrip junk) = none →
      pyStarts (pyStrip junk) "reply " = false →
      pyStarts (pyStrip junk) "goto " = false →
      pyStarts (pyStrip junk) "ask " = false →
      pyStarts (pyStrip junk) "set " = false →
      matchIfGoto (pyStrip junk) = none →
      pyStarts (pyStrip junk) "save " = false →
      pyStarts (pyStrip junk) "load " = false →
      pba (fuel + 1) (junk :: rest) acc
        = .error (.err ("无法识别的语句：" ++ pyStrip junk)))
    ∧ (∀ (l : String) (rest : List String) (flows : List (String × Flow)) (fuel : Nat),
      pyStarts (pyStrip l) "state " = true →
      topLoop (fuel + 1) (l :: rest) flows
        = .error (.err "state 必须出现在 flow 内")) := by
  refine ⟨?_, ?_, ?_, ?_⟩
  · intro junk rest flows fuel h1 h2 h3 h4
    simp [topLoop, h1, h2, h3, h4]
  · intro junk rest sts fuel h1 h2
    simp [flowScan, h1, h2]
  · intro junk rest acc fuel h1 h2 h3 h4 h5 h6 h7 h8 h9 h10 h11 h12 h13 h14 h15
    simp [pba, h1, h2, h3, h4, h5, h6, h7, h8, h9, h10, h11, h12, h13, h14, h15]
  · intro l rest flows fuel h1
    exact topLoop_state_err l rest flows fuel h1

/-- C10 witness: the listed preconditions hold of a concrete junk line,
    which is skipped at both outer levels and fatal inside a block. -/
theorem junk_line_handling_witness :
    topLoop 6 ["how are you"] [] = topLoop 5 [] []
    ∧ flowScan 6 ["how are you"] [] = flowScan 5 [] []
    ∧ pba 6 ["how are you"] [] = .error (.err ("无法识别的语句：" ++ pyStrip "how are you"))
    ∧ topLoop 6 ["state a"] [] = .error (.err "state 必须出现在 flow 内") := by
  refine ⟨?_, ?_, ?_, ?_⟩
  · exact junk_line_handling.1 "how are you" [] [] 5 (by decide) (by decide)
      (by decide) (by decide)
  · exact junk_line_handling.2.1 "how are you" [] [] 5 (by decide) (by decide)
  · exact junk_line_handling.2.2.1 "how are you" [] [] 5 (by decide) (by decide)
      (by decide) (by decide) (by decide) (by decide) (by decide) (by decide)
      (by decide) (by decide) (by decide) (by decide) (by decide) (by decide)
      (by decide)
  · exact junk_line_handling.2.2.2 "state a" [] [] 5 (by decide)

/-! ### C4: what a successful parse guarantees -/

theorem topLoop_no_flow_line (ls : List String) :
    ∀ (fuel : Nat) (flows : List (String × Flow)),
    (∀ l ∈ ls, pyStarts (pyStrip l) "flow " = false) →
    ls.length < fuel →
    topLoop fuel ls flows = .ok flows
      ∨ topLoop fuel ls flows = .error (.err "state 必须出现在 flow 内") := by
  induction ls with
  | nil =>
      intro fuel flows _ hf
      cases fuel with
      | zero => omega
      | succ f => exact Or.inl rfl
  | cons l rest ih =>
      intro fuel flows hno hf
      cases fuel with
      | zero => omega
      | succ f =>
          have hl : pyStarts (pyStrip l) "flow " = false := hno l (by simp)
          have hrest : ∀ l2 ∈ rest, pyStarts (pyStrip l2) "flow " = false :=
            fun l2 h2 => hno l2 (by simp [h2])
          have hf2 : rest.length < f := by simp at hf; omega
          by_cases hblank : pyStrip l = "" ∨ pyStarts (pyStrip l) "#" = true
          · have : topLoop (f + 1) (l :: rest) flows = topLoop f rest flows := by
              rcases hblank with hb | hb <;> simp [topLoop, hb]
            rw [this]
            exact ih f flows hrest hf2
          · push_neg at hblank
            obtain ⟨hb1, hb2⟩ := hblank
            have hb2f : pyStarts (pyStrip l) "#" = false := by
              cases h : pyStarts (pyStrip l) "#"
              · rfl
              · exact absurd h hb2
            by_cases hstate : pyStarts (pyStrip l) "state " = true
            · exact Or.inr (topLoop_state_err l rest flows f hstate)
            · have hstatef : pyStarts (pyStrip l) "state " = false := by
                cases h : pyStarts (pyStrip l) "state "
                · rfl
                · exact absurd h hstate
              have : topLoop (f + 1) (l :: rest) flows = topLoop f rest flows := by
                simp [topLoop, hb1, hb2f, hl, hstatef]
              rw [this]
              exact ih f flows hrest hf2

/-- C4 counterexample.  The source consisting of the single line flow main
    is syntactically valid and parses successfully, yet its only flow has
    zero states, contradicting the claim that every flow of a parsed
    program has at least one state. -/
theorem parse_zero_state_flow_counterexample :
    parse "flow main" 10
      = .ok { flows := [("main", { name := "main", states := [] })] } := by
  rfl

/-- C4 (amended).  Every successful parse yields a program with at least
    one flow (but a flow may have zero states — the one-state invariant is
    enforced at engine construction, not by the parser); the empty source
    fails with the no-flow parse error; and a source none of whose lines
    starts with the flow keyword fails with a parse error (given enough
    fuel for the parser's line loop). -/
theorem parse_program_shape :
    (∀ (text : String) (fuel : Nat) (prog : Program),
      parse text fuel = .ok prog → prog.flows ≠ [])
    ∧ (∀ fuel : Nat, parse "" (fuel + 1) = .error (.err "至少需要一个 flow"))
    ∧ (∀ (text : String) (fuel : Nat),
      (∀ l ∈ pyLines text, pyStarts (pyStrip l) "flow " = false) →
      (pyLines text).length < fuel →
      ∃ m, parse text fuel = .error (.err m)) := by
  refine ⟨?_, ?_, ?_⟩
  · intro text fuel prog h
    unfold parse at h
    cases ht : topLoop fuel (pyLines text) [] with
    | error e => rw [ht] at h; simp at h
    | ok flows =>
        rw [ht] at h
        by_cases hf : flows.isEmpty
        · simp [hf] at h
        · simp [hf] at h
          cases flows with
          | nil => simp at hf
          | cons a l =>
              intro hcon
              rw [← h] at hcon
              simp at hcon
  · intro fuel
    rfl
  · intro text fuel hno hf
    rcases topLoop_no_flow_line (pyLines text) fuel [] hno hf with h | h
    · exact ⟨"至少需要一个 flow", by unfold parse; rw [h]; rfl⟩
    · exact ⟨"state 必须出现在 flow 内", by unfold parse; rw [h]; rfl⟩

/-- C4 witness: the amended theorem applied to the counterexample source
    (successful parse has a flow) and to a source with no flow line. -/
theorem parse_program_shape_witness :
    ({ flows := [("main", { name := "main", states := [] })] } : Program).flows ≠ []
    ∧ (∃ m, parse "hello" 3 = .error (.err m)) := by
  constructor
  · exact parse_program_shape.1 "flow main" 10
      { flows := [("main", { name := "main", states := [] })] } (by rfl)
  · exact parse_program_shape.2.2 "hello" 3 (by decide) (by decide)

/-! ### C2: the next-state priority policy -/

/-- The classifier consultation exactly as the claim words it: it happens
    only when the state performed an Ask this visit (the last-asked marker
    is a nonempty name) and a classifier is configured; the classifier
    receives the answered value, the flow's state names and the current
    state excluded, and its suggestion counts only if it names a valid
    state different from the current one. -/
def specClassifierChoice (classifier : Option Classifier) (lastAsked : Option String)
    (ctx : List (String × String)) (names : List String) (cur : String) :
    Option String :=
  match classifier, lastAsked with
  | some f, some la =>
      if la = "" then none
      else
        match f ((lookupStr ctx la).getD "") names [cur] with
        | some s => if s ≠ "" ∧ s ∈ names ∧ s ≠ cur then some s else none
        | none => none
  | _, _ => none

/-- The priority policy as the claim states it: (a) the explicit target;
    (b) else the accepted classifier suggestion with its notice line;
    (c) else, if the visit counter is at least two and a fallback state is
    configured, the fallback; (d) else halt. -/
def resolveNextSpec (target : Option String) (classifier : Option Classifier)
    (lastAsked : Option String) (ctx : List (String × String))
    (names : List String) (cur : String) (vis : Nat) (fb : Option String) :
    Option String × List String :=
  match target with
  | some t => (some t, [])
  | none =>
      match specClassifierChoice classifier lastAsked ctx names cur with
      | some s => (some s, [llmNotice s])
      | none =>
          if 2 ≤ vis then
            match fb with
            | some f2 => (some f2, [])
            | none => (none, [])
          else (none, [])

/-- The fallback-state convention as the claim states it: the first of the
    three conventional names that is a state of the flow. -/
def specFallback (sts : List (String × State)) : Option String :=
  ["fallback", "unknown", "end"].find? (fun n => (lookupStr sts n).isSome)

/-- C2.  The engine's end-of-visit resolution (the function `run_iter`
    consults after executing a state) coincides with the claimed strict
    priority order, and the fallback state resolved at construction is the
    first conventional name present. -/
theorem next_state_policy :
    (∀ (target : Option String) (classifier : Option Classifier)
        (lastAsked : Option String) (ctx : List (String × String))
        (names : List String) (cur : String) (vis : Nat) (fb : Option String),
      resolveNext target classifier lastAsked ctx names cur vis fb
        = resolveNextSpec target classifier lastAsked ctx names cur vis fb)
    ∧ (∀ sts : List (String × State), pickFallback sts = specFallback sts) := by
  constructor
  · intro target classifier lastAsked ctx names cur vis fb
    cases target with
    | some t => rfl
    | none =>
        cases classifier with
        | none =>
            simp [resolveNext, resolveNextSpec, specClassifierChoice]
            by_cases hv : 2 ≤ vis
            · cases fb <;> simp [hv]
            · cases fb <;> simp [hv]
        | some f =>
            cases lastAsked with
            | none =>
                simp [resolveNext, resolveNextSpec, specClassifierChoice,
                  lastAskedTruthy]
                by_cases hv : 2 ≤ vis
                · cases fb <;> simp [hv]
                · cases fb <;> simp [hv]
            | some la =>
                by_cases hla : la = ""
                · subst hla
                  simp [resolveNext, resolveNextSpec, specClassifierChoice,
                    lastAskedTruthy]
                  by_cases hv : 2 ≤ vis
                  · cases fb <;> simp [hv]
                  · cases fb <;> simp [hv]
                · cases hs : f ((lookupStr ctx la).getD "") names [cur] with
                  | none =>
                      simp [resolveNext, resolveNextSpec, specClassifierChoice,
                        lastAskedTruthy, hla, hs]
                      by_cases hv : 2 ≤ vis
                      · cases fb <;> simp [hv]
                      · cases fb <;> simp [hv]
                  | some s =>
                      by_cases hok : s ≠ "" ∧ s ∈ names ∧ s ≠ cur
                      · simp [resolveNext, resolveNextSpec, specClassifierChoice,
                          lastAskedTruthy, hla, hs, hok]
                      · simp [resolveNext, resolveNextSpec, specClassifierChoice,
                          lastAskedTruthy, hla, hs, hok]
                        by_cases hv : 2 ≤ vis
                        · cases fb <;> simp [hv]
                        · cases fb <;> simp [hv]
  · intro sts
    simp only [pickFallback, specFallback, List.find?]
    by_cases h1 : (lookupStr sts "fallback").isSome
    · simp [h1]
    · simp only [h1]
      by_cases h2 : (lookupStr sts "unknown").isSome
      · simp [h1, h2]
      · by_cases h3 : (lookupStr sts "end").isSome
        · simp [h1, h2, h3]
        · simp [h1, h2, h3]

/-! ### C5: the runaway-transition guard -/

/-- A flow of two states that jump to each other unconditionally. -/
def cycleProg (na nb : String) : Program :=
  { flows := [("main",
      { name := "main",
        states := [(na, { name := na, actions := [.goto nb] }),
                   (nb, { name := nb, actions := [.goto na] })] })] }

theorem runLoop_cycle (P : String → Except String PyExpr)
    (askFn : String → String → String) (na nb : String) (hne : na ≠ nb) :
    ∀ (c : Nat) (eng : Engine) (out : List String),
    eng.states = [(na, { name := na, actions := [.goto nb] }),
                  (nb, { name := nb, actions := [.goto na] })] →
    (eng.stateName = na ∨ eng.stateName = nb) →
    runLoop P askFn c eng out = .error .runaway := by
  intro c
  induction c with
  | zero => intro eng out _ _; rfl
  | succ c2 ih =>
      intro eng out hst hcur
      have hgoto : ∀ (t : String) (est : ExecSt),
          execActs P askFn [.goto t] est = .ok (est, some t) := by
        intro t est
        rw [execActs_cons]
        have : execAct P askFn (.goto t) est = .ok (est, some t) := by
          simp [execAct]
        rw [this]
      rcases hcur with hc | hc
      · have hlook : lookupStr eng.states eng.stateName
            = some { name := na, actions := [.goto nb] } := by
          simp [hst, hc, lookupStr, List.find?]
        have hlook2 : (lookupStr eng.states nb).isSome = true := by
          simp [hst, lookupStr, List.find?, hne]
        unfold runLoop
        simp only [hlook, hgoto, resolveNext, hlook2, if_true]
        exact ih _ _ (by simp [hst]) (Or.inr rfl)
      · have hlook : lookupStr eng.states eng.stateName
            = some { name := nb, actions := [.goto na] } := by
          simp [hst, hc, lookupStr, List.find?, hne]
        have hlook2 : (lookupStr eng.states na).isSome = true := by
          simp [hst, lookupStr, List.find?]
        unfold runLoop
        simp only [hlook, hgoto, resolveNext, hlook2, if_true]
        exact ih _ _ (by simp [hst]) (Or.inl rfl)

/-- C5.  Running the engine on a flow whose two states jump to each other
    unconditionally yields the distinct runaway-transition error for every
    initial context once the 2000-transition ceiling is exceeded; the
    modelled run is total, so the loop never continues past the guard. -/
theorem runaway_guard (P : String → Except String PyExpr)
    (askFn : String → String → String) (na nb : String)
    (ctx0 : List (String × String)) (eng : Engine) (hne : na ≠ nb)
    (hinit : engineInit (cycleProg na nb) "main" ctx0 none = .ok eng) :
    run P askFn eng = .error .runaway := by
  have hst : eng.states = [(na, { name := na, actions := [.goto nb] }),
      (nb, { name := nb, actions := [.goto na] })] := by
    simp [engineInit, cycleProg, lookupStr, List.find?] at hinit
    rw [← hinit]
  have hcur : eng.stateName = na := by
    simp [engineInit, cycleProg, lookupStr, List.find?] at hinit
    rw [← hinit]
  exact runLoop_cycle P askFn na nb hne 2000 eng [] hst (Or.inl hcur)

/-- C5 witness: the guard theorem at the concrete two-state cycle. -/
theorem runaway_guard_witness :
    ∃ eng, engineInit (cycleProg "a" "b") "main" [] none = .ok eng
      ∧ run (fun s => Except.error s) (fun _ _ => "x") eng = .error .runaway := by
  refine ⟨{ states := [("a", { name := "a", actions := [.goto "b"] }),
                       ("b", { name := "b", actions := [.goto "a"] })],
            stateName := "a", ctx := [], classifier := none, lastAsked := none,
            visits := [], fallbackState := none, store := [] }, ?_, ?_⟩
  · rfl
  · exact runaway_guard (fun s => Except.error s) (fun _ _ => "x") "a" "b" [] _
      (by decide) (by rfl)

end AgentDsl
